import Mathlib

/-!
Shallow embedding of the query-plan core of `src/query_handler.py`:

* `make_json_safe`  - the JSON-safety normalizer,
* `_normalize` / `_best_col_match` - the column resolver,
* `execute_query_plan` - the restricted query-plan executor,
* `_extract_json` - the JSON extractor for the planner response.

Python exceptions that escape a function are modeled by `Option`/`Except`
results (`none` / `.error` = an uncaught exception).  Pandas/NumPy library
calls used by the source (`astype(str)`, `to_numeric`, `to_datetime`,
`groupby(...).agg`, `sort_values`, `head`) are modeled per-value by the
explicit coercion and aggregation functions below; each carries a comment
stating the library behavior it reflects.
-/

set_option maxRecDepth 20000

namespace QH

/-- Whitespace as Python's `str.strip()` sees it. -/
def wsChar (c : Char) : Bool :=
  c = ' ' || c = '\t' || c = '\n' || c = '\r' || c = Char.ofNat 11 || c = Char.ofNat 12

/-- Python `str.strip()`. -/
def pyStrip (s : String) : String :=
  String.mk (((s.data.dropWhile wsChar).reverse.dropWhile wsChar).reverse)

/-- ASCII lower-casing of one character (the Unicode corners of Python
`.lower()` are not modeled). -/
def lowerChar (c : Char) : Char :=
  if 'A' ≤ c ∧ c ≤ 'Z' then Char.ofNat (c.toNat + 32) else c

/-- ASCII `str.lower()`. -/
def lowerStr (s : String) : String :=
  String.mk (s.data.map lowerChar)

/-- ASCII upper-casing of one character. -/
def upperChar (c : Char) : Char :=
  if 'a' ≤ c ∧ c ≤ 'z' then Char.ofNat (c.toNat - 32) else c

/-- ASCII `str.upper()`. -/
def upperStr (s : String) : String :=
  String.mk (s.data.map upperChar)

/-- The number denoted by a list of decimal digits. -/
def natOfDigits (l : List Char) : Nat :=
  l.foldl (fun a c => a * 10 + (c.toNat - 48)) 0

/-- Split a character list at every occurrence of a separator. -/
def splitChar (sep : Char) : List Char → List (List Char)
  | [] => [[]]
  | c :: rest =>
    match splitChar sep rest with
    | [] => [[]]
    | g :: gs => if c = sep then [] :: g :: gs else (c :: g) :: gs

/-- A cell of the tabular dataset (an entry of a pandas object column):
missing (`np.nan`, the pandas missing sentinel - `None` cells are not
distinguished from `nan` in this model), text, integer, or non-integer
numeric.  Rationals stand in for Python floats; the executor only ever
produces finite numerics in cells (non-finite values never arise on the
modeled paths), so no finiteness flag is needed here. -/
inductive Cell where
  | null
  | str (s : String)
  | int (n : Int)
  | rat (q : ℚ)
deriving DecidableEq, Repr

/-- A JSON scalar or list occurring in a plan (`value` of a filter,
`limit`, ...):  `null`, text, integer, or a list of such values.  Boolean
and float plan values do not occur in any modeled path. -/
inductive PlanVal where
  | vnull
  | vstr (s : String)
  | vint (n : Int)
  | vlist (xs : List PlanVal)

mutual
/-- Decidable equality for plan values (the nested list forces a manual
instance). -/
def PlanVal.decEq : (a b : PlanVal) → Decidable (a = b)
  | .vnull, .vnull => .isTrue rfl
  | .vnull, .vstr _ => .isFalse (fun h => PlanVal.noConfusion h)
  | .vnull, .vint _ => .isFalse (fun h => PlanVal.noConfusion h)
  | .vnull, .vlist _ => .isFalse (fun h => PlanVal.noConfusion h)
  | .vstr _, .vnull => .isFalse (fun h => PlanVal.noConfusion h)
  | .vstr s, .vstr t =>
    if h : s = t then .isTrue (by rw [h]) else .isFalse (fun e => h (by cases e; rfl))
  | .vstr _, .vint _ => .isFalse (fun h => PlanVal.noConfusion h)
  | .vstr _, .vlist _ => .isFalse (fun h => PlanVal.noConfusion h)
  | .vint _, .vnull => .isFalse (fun h => PlanVal.noConfusion h)
  | .vint _, .vstr _ => .isFalse (fun h => PlanVal.noConfusion h)
  | .vint m, .vint n =>
    if h : m = n then .isTrue (by rw [h]) else .isFalse (fun e => h (by cases e; rfl))
  | .vint _, .vlist _ => .isFalse (fun h => PlanVal.noConfusion h)
  | .vlist _, .vnull => .isFalse (fun h => PlanVal.noConfusion h)
  | .vlist _, .vstr _ => .isFalse (fun h => PlanVal.noConfusion h)
  | .vlist _, .vint _ => .isFalse (fun h => PlanVal.noConfusion h)
  | .vlist xs, .vlist ys =>
    match PlanVal.decEqList xs ys with
    | .isTrue h => .isTrue (by rw [h])
    | .isFalse h => .isFalse (fun e => h (by cases e; rfl))

def PlanVal.decEqList : (xs ys : List PlanVal) → Decidable (xs = ys)
  | [], [] => .isTrue rfl
  | [], _ :: _ => .isFalse (fun h => List.noConfusion h)
  | _ :: _, [] => .isFalse (fun h => List.noConfusion h)
  | x :: xs, y :: ys =>
    match PlanVal.decEq x y, PlanVal.decEqList xs ys with
    | .isTrue h1, .isTrue h2 => .isTrue (by rw [h1, h2])
    | .isFalse h1, _ => .isFalse (fun e => h1 (by cases e; rfl))
    | .isTrue _, .isFalse h2 => .isFalse (fun e => h2 (by cases e; rfl))
end

instance : DecidableEq PlanVal := PlanVal.decEq

mutual
/-- Python `repr(x)` for plan values (string quoting uses `\x27`; escaping
of quotes inside the string itself is not modeled - never load-bearing). -/
def pyRepr : PlanVal → String
  | .vnull => "None"
  | .vstr s => "\x27" ++ s ++ "\x27"
  | .vint n => toString n
  | .vlist xs => "[" ++ pyReprList xs ++ "]"

/-- `", ".join(repr(x) for x in xs)`. -/
def pyReprList : List PlanVal → String
  | [] => ""
  | [x] => pyRepr x
  | x :: y :: xs => pyRepr x ++ ", " ++ pyReprList (y :: xs)
end

/-- Python `str(x)` for plan values: strings print bare, `None` prints
`None`, integers print in decimal, and lists print with `repr` of their
elements, exactly as `str` of a Python list does. -/
def pyStrVal : PlanVal → String
  | .vstr s => s
  | .vnull => "None"
  | .vint n => toString n
  | .vlist xs => "[" ++ pyReprList xs ++ "]"

instance : Repr PlanVal := ⟨fun v _ => Std.Format.text (pyRepr v)⟩

/-- Python truthiness of a plan value (`bool(x)`). -/
def pyTruthy : PlanVal → Bool
  | .vnull => false
  | .vstr s => !s.data.isEmpty
  | .vint n => n != 0
  | .vlist xs => !xs.isEmpty

/-- Models `[repr(x) for x in (val or [])]` from the `in`-filter audit
fragment: a falsy value yields the empty list, a list yields the reprs of
its elements, a string is iterated character by character (each character
`repr`-ed as a one-character string), and a (truthy) integer is not
iterable - the comprehension raises `TypeError`, modeled as `none`. -/
def reprElems (v : PlanVal) : Option (List String) :=
  if !pyTruthy v then some [] else
    match v with
    | .vlist xs => some (xs.map pyRepr)
    | .vstr s => some (s.data.map fun c => pyRepr (.vstr (String.mk [c])))
    | _ => none

/-- The working table: named columns plus rows of cells (a pandas
`DataFrame` restricted to what the executor touches). -/
structure DataFrame where
  cols : List String
  rows : List (List Cell)
deriving DecidableEq, Repr

/-- Index of column `c` (first occurrence; dataset schemas have distinct
names, so this is the pandas column lookup). -/
def colIdx (cols : List String) (c : String) : Nat :=
  cols.findIdx (fun x => decide (x = c))

/-- The cell of row `r` in column `c`. -/
def cellAt (cols : List String) (c : String) (r : List Cell) : Cell :=
  r.getD (colIdx cols c) Cell.null

/-- `series.astype(str)` applied to one cell.  Crucially, the pandas
missing sentinel `np.nan` stringifies to the three-letter text `nan`
(this happens *before* any `na=` handling downstream).  The display of a
non-integer numeric is not load-bearing in any theorem and is modeled
schematically. -/
def cellStr : Cell → String
  | .null => "nan"
  | .str s => s
  | .int n => toString n
  | .rat q => toString q.num ++ "/" ++ toString q.den

/-- Parse an unsigned decimal numeral (`digits`, `digits.digits`,
`.digits`, `digits.`) as a rational. -/
def parseUnsignedNum (cs : List Char) : Option ℚ :=
  match cs.dropWhile Char.isDigit with
  | [] => if (cs.takeWhile Char.isDigit).isEmpty then none
          else some ((natOfDigits (cs.takeWhile Char.isDigit) : ℚ))
  | '.' :: fp =>
    if fp.all Char.isDigit ∧ ¬((cs.takeWhile Char.isDigit).isEmpty ∧ fp.isEmpty) then
      some ((natOfDigits (cs.takeWhile Char.isDigit) : ℚ) +
        (natOfDigits fp : ℚ) / ((10 : ℚ) ^ fp.length))
    else none
  | _ => none

/-- Models numeric coercion of one text value as `pd.to_numeric(...,
errors="coerce")` does: optional sign, decimal numeral; anything else
coerces to `NaN` (`none`).  Exponent notation is not modeled (never
load-bearing). -/
def pyParseNum (s : String) : Option ℚ :=
  match (pyStrip s).data with
  | '-' :: cs => (parseUnsignedNum cs).map (fun q => -q)
  | '+' :: cs => parseUnsignedNum cs
  | cs => parseUnsignedNum cs

/-- `pd.to_numeric(series, errors="coerce")` applied to one cell:
missing stays missing, numerics pass through, text is parsed. -/
def toNumCell : Cell → Option ℚ
  | .null => none
  | .int n => some ((n : ℚ))
  | .rat q => some q
  | .str s => pyParseNum s

/-- `pd.to_numeric(pd.Series([val]), errors="coerce").iloc[0]` for the
scalar filter value: integers coerce, strings parse, `None` and lists
coerce to `NaN` (`none`). -/
def toNumVal : PlanVal → Option ℚ
  | .vint n => some ((n : ℚ))
  | .vstr s => pyParseNum s
  | _ => none

/-- Parse an ISO `YYYY-MM-DD` date to a comparable code
(`y*10000 + m*100 + d`).  Models `pd.to_datetime(..., errors="coerce")`
for the date-literal texts the executor sees; other accepted pandas
formats are not modeled (never load-bearing). -/
def parseDate (s : String) : Option Int :=
  match splitChar '-' (pyStrip s).data with
  | [ys, ms, ds] =>
    if ys.length = 4 ∧ ms.length = 2 ∧ ds.length = 2 ∧
       ys.all Char.isDigit ∧ ms.all Char.isDigit ∧ ds.all Char.isDigit then
      if 1 ≤ natOfDigits ms ∧ natOfDigits ms ≤ 12 ∧ 1 ≤ natOfDigits ds ∧ natOfDigits ds ≤ 31 then
        some ((natOfDigits ys * 10000 + natOfDigits ms * 100 + natOfDigits ds : Nat) : Int)
      else none
    else none
  | _ => none

/-- `pd.to_datetime(series, errors="coerce")` on one cell: date texts
parse, everything else (missing, numerics - the executor never reaches
this with numerics that matter) coerces to `NaT` (`none`). -/
def toDateCell : Cell → Option Int
  | .str s => parseDate s
  | _ => none

/-- `pd.to_datetime(val, errors="coerce")` on the scalar filter value.
`None` gives `NaT`; an integer value never reaches this point because
numeric coercion of an integer always succeeds first. -/
def toDateVal : PlanVal → Option Int
  | .vstr s => parseDate s
  | _ => none

/-- One filter clause `{col, op, value, case_insensitive}` of a plan.
Non-string `col`/`op` JSON values behave exactly like absent ones (they
fail the falsiness/membership guards), so they are modeled as `none`. -/
structure FilterClause where
  col : Option String := none
  op : Option String := none
  value : PlanVal := .vnull
  case_insensitive : Bool := true
deriving DecidableEq, Repr

/-- `op in ("gt","gte","lt","lte")` comparison: keep the row when the
column value `x` stands in the `op` relation to the filter value `v`. -/
def opCmp [LinearOrder α] (op : String) (x v : α) : Bool :=
  if op = "gt" then v < x
  else if op = "gte" then v ≤ x
  else if op = "lt" then x < v
  else x ≤ v

/-- The SQL comparison symbol for the audit fragment. -/
def opSym (op : String) : String :=
  if op = "gt" then ">"
  else if op = "gte" then ">="
  else if op = "lt" then "<"
  else "<="

/-- `working[s_num <op> v_num]`: keep the rows whose numerically coerced
cell satisfies the comparison; rows whose cell does not coerce (missing
or non-numeric text, i.e. `NaN` after coercion) are excluded. -/
def numFilter (w : DataFrame) (c : String) (op : String) (v : ℚ) : DataFrame :=
  { w with rows := w.rows.filter fun r =>
      match toNumCell (cellAt w.cols c r) with
      | some x => opCmp op x v
      | none => false }

/-- `working[s_dt <op> v_dt]`: chronological comparison; rows whose cell
does not coerce to an instant (`NaT`) are excluded. -/
def dateFilter (w : DataFrame) (c : String) (op : String) (v : Int) : DataFrame :=
  { w with rows := w.rows.filter fun r =>
      match toDateCell (cellAt w.cols c r) with
      | some x => opCmp op x v
      | none => false }

/-- The case-folded text of one cell as the string operators see it
(`s = series.astype(str)`, then `.str.lower()` when case-insensitive). -/
def cellCmpStr (ci : Bool) (cell : Cell) : String :=
  if ci then lowerStr (cellStr cell) else cellStr cell

/-- `str(val_cmp)` as used by `contains`/`equals`: when case-insensitive,
a list value lowers each element as text and the whole is `str` of that
list of strings; a scalar lowers its text; otherwise `str` of the raw
value. -/
def stringTarget (ci : Bool) (v : PlanVal) : String :=
  if ci then
    match v with
    | .vlist xs => pyStrVal (.vlist (xs.map fun x => .vstr (lowerStr (pyStrVal x))))
    | x => lowerStr (pyStrVal x)
  else pyStrVal v

/-- The comparison list for the `in` operator (`val_cmp`, wrapped in a
singleton when not a list): lowered element texts when case-insensitive,
raw values otherwise. -/
def inMembers (ci : Bool) (v : PlanVal) : List PlanVal :=
  if ci then
    match v with
    | .vlist xs => xs.map fun x => .vstr (lowerStr (pyStrVal x))
    | x => [.vstr (lowerStr (pyStrVal x))]
  else
    match v with
    | .vlist xs => xs
    | x => [x]

/-- Is `pat` a prefix of `l`? -/
def listPrefix : List Char → List Char → Bool
  | [], _ => true
  | _ :: _, [] => false
  | a :: as, b :: bs => a == b && listPrefix as bs

/-- Is `pat` a contiguous segment of `l`? -/
def listInfix (pat : List Char) : List Char → Bool
  | [] => pat.isEmpty
  | b :: bs => listPrefix pat (b :: bs) || listInfix pat bs

/-- Substring test for the `contains` operator.  The source calls
`Series.str.contains`, whose default is regex matching; on patterns free
of regex metacharacters (all modeled inputs) that coincides with
substring search, which is what the spec describes and what is modeled. -/
def strContainsSub (s pat : String) : Bool :=
  listInfix pat.data s.data

/-- Boolean-mask row selection `working[mask]`: keep the rows satisfying
the predicate; the schema is untouched. -/
def filterRows (w : DataFrame) (p : List Cell → Bool) : DataFrame :=
  { w with rows := w.rows.filter p }

/-- One pass of the executor's per-clause filter loop
(`query_handler.py` lines 118-190).  `some (w', fragments)` is the new
working table plus the appended audit fragments; `none` models an
exception escaping `execute_query_plan`. -/
def applyFilter (w : DataFrame) (f : FilterClause) : Option (DataFrame × List String) :=
  match f.col, f.op with
  | some c, some op =>
    if c = "" ∨ op = "" ∨ ¬ c ∈ w.cols then some (w, [])
    else
      if op = "contains" then
        some (filterRows w
                (fun r => strContainsSub (cellCmpStr f.case_insensitive (cellAt w.cols c r))
                  (stringTarget f.case_insensitive f.value)),
              [c ++ " ILIKE \x27%" ++ pyStrVal f.value ++ "%\x27"])
      else if op = "equals" then
        some (filterRows w
                (fun r => decide (cellCmpStr f.case_insensitive (cellAt w.cols c r) =
                  stringTarget f.case_insensitive f.value)),
              [if f.case_insensitive then c ++ " ILIKE \x27" ++ pyStrVal f.value ++ "\x27"
               else c ++ " = \x27" ++ pyStrVal f.value ++ "\x27"])
      else if op = "in" then
        match reprElems f.value with
        | none => none
        | some es =>
          some (filterRows w
                  (fun r => decide ((PlanVal.vstr (cellCmpStr f.case_insensitive (cellAt w.cols c r))) ∈
                    inMembers f.case_insensitive f.value)),
                [c ++ " IN (" ++ String.intercalate (", ") es ++ ")"])
      else if op = "gt" ∨ op = "gte" ∨ op = "lt" ∨ op = "lte" then
        match toNumVal f.value with
        | some q => some (numFilter w c op q, [c ++ " " ++ opSym op ++ " " ++ pyStrVal f.value])
        | none =>
          match f.value with
          | .vlist _ => none
          | _ =>
            match toDateVal f.value with
            | some d => some (dateFilter w c op d,
                [c ++ " " ++ opSym op ++ " \x27" ++ pyStrVal f.value ++ "\x27"])
            | none => some (w, [])
      else some (w, [])
  | _, _ => some (w, [])

/-- The filter stage: fold `applyFilter` over the clauses, collecting
audit fragments in order. -/
def runFilters (w : DataFrame) : List FilterClause → Option (DataFrame × List String)
  | [] => some (w, [])
  | f :: fs =>
    match applyFilter w f with
    | none => none
    | some (w', cs) =>
      match runFilters w' fs with
      | none => none
      | some (w'', rest) => some (w'', cs ++ rest)

/-- One aggregation `{col, fn, as}` of the groupby spec (`as` is spelled
`asName`; non-string JSON values behave like absent ones here too). -/
structure AggSpec where
  col : Option String := none
  fn : Option String := none
  asName : Option String := none
deriving DecidableEq, Repr

/-- The groupby spec `{by: [...], agg: [...]}` (`by` is spelled `bys`).
Non-string entries of `by` can never be members of the schema and are
therefore modeled as absent. -/
structure GroupSpec where
  bys : List String := []
  agg : List AggSpec := []
deriving DecidableEq, Repr

/-- The sort spec `{col, ascending}`; `ascending` defaults to `False`. -/
structure SortSpec where
  col : Option String := none
  ascending : Bool := false
deriving DecidableEq, Repr

/-- A query plan.  All fields optional; `filters` absent or `null` is the
empty list, `limit` keeps the raw JSON value (its `int(...)` coercion is
part of execution). -/
structure Plan where
  filters : List FilterClause := []
  groupby : Option GroupSpec := none
  select_cols : List String := []
  sort : Option SortSpec := none
  limit : Option PlanVal := none
deriving DecidableEq, Repr

/-- Python-dict insertion: overwriting an existing key keeps its original
position; a new key is appended.  Models both `agg_map[alias] = ...` and
the `norm_cols` dict comprehension. -/
def dictInsert (k : String) (v : α) : List (String × α) → List (String × α)
  | [] => [(k, v)]
  | (k', v') :: rest => if k' = k then (k', v) :: rest else (k', v') :: dictInsert k v rest

/-- Dict lookup. -/
def lookupDict (m : List (String × α)) (k : String) : Option α :=
  (m.find? (fun e => decide (e.1 = k))).map (·.2)

/-- The recognized aggregation functions. -/
def recognizedFns : List String := ["count", "nunique", "sum", "mean", "max", "min"]

/-- `alias = a.get("as") or f"{fn}_{col}"`: an absent or empty alias falls
back to `f"{fn}_{col}"` (with Python printing `None` for absent parts;
the fallback only matters for valid aggregations, where both parts are
present). -/
def aggAlias (a : AggSpec) : String :=
  let fallback := (a.fn.getD "None") ++ "_" ++ (a.col.getD "None")
  match a.asName with
  | some s => if s = "" then fallback else s
  | none => fallback

/-- Build `agg_map`: alias ↦ (column, function), keeping only
aggregations whose column exists and whose function is recognized
(`query_handler.py` lines 200-210). -/
def buildAggMap (cols : List String) (aggs : List AggSpec) : List (String × String × String) :=
  aggs.foldl (fun m a =>
    match a.col, a.fn with
    | some c, some fn =>
      if c ∈ cols ∧ fn ∈ recognizedFns then dictInsert (aggAlias a) (c, fn) m else m
    | _, _ => m) []

/-- The grouping key of a row: its cells in the `by` columns. -/
def keyOf (cols : List String) (bys : List String) (r : List Cell) : List Cell :=
  bys.map (fun b => cellAt cols b r)

/-- `by_cols = [c for c in (groupby.get("by") or []) if c in working.columns]`. -/
def resolvedBys (w : DataFrame) (g : GroupSpec) : List String :=
  g.bys.filter (fun c => decide (c ∈ w.cols))

/-- Three-way comparison of two rationals. -/
def qOrd (x y : ℚ) : Ordering :=
  if x < y then .lt else if y < x then .gt else .eq

/-- The numeric content of a cell, if any. -/
def cellNumQ : Cell → Option ℚ
  | .int n => some ((n : ℚ))
  | .rat q => some q
  | _ => none

/-- Lexicographic comparison of two texts by code point (Python string
ordering). -/
def strOrdL : List Char → List Char → Ordering
  | [], [] => .eq
  | [], _ :: _ => .lt
  | _ :: _, [] => .gt
  | c :: cs, d :: ds =>
    if c.toNat < d.toNat then .lt
    else if d.toNat < c.toNat then .gt
    else strOrdL cs ds

/-- Python-style comparison of two non-missing cells: numerics compare
numerically, texts lexicographically, and a text/numeric mix raises
`TypeError` (`none`), as pandas sorting over mixed object columns does. -/
def cellOrd (a b : Cell) : Option Ordering :=
  match cellNumQ a, cellNumQ b with
  | some x, some y => some (qOrd x y)
  | _, _ =>
    match a, b with
    | .str s, .str t => some (strOrdL s.data t.data)
    | _, _ => none

/-- Comparison of grouping-key cells: missing keys form their own group
and sort last (`dropna=False` plus pandas putting `NaN` keys at the
end). -/
def keyCellOrd (a b : Cell) : Option Ordering :=
  match a, b with
  | .null, .null => some .eq
  | .null, _ => some .gt
  | _, .null => some .lt
  | _, _ => cellOrd a b

/-- Lexicographic comparison of grouping keys. -/
def keyOrd : List Cell → List Cell → Option Ordering
  | [], [] => some .eq
  | [], _ :: _ => some .lt
  | _ :: _, [] => some .gt
  | a :: as, b :: bs =>
    match keyCellOrd a b with
    | none => none
    | some .eq => keyOrd as bs
    | some o => some o

/-- `a ≤ b` on grouping keys, failing on incomparable cells. -/
def keyLe (a b : List Cell) : Option Bool :=
  (keyOrd a b).map (fun o => decide (o ≠ .gt))

/-- Ordered insertion under a fallible order (used to model pandas key
sorting; `none` propagates a comparison `TypeError`). -/
def insertSortedM (le : α → α → Option Bool) (a : α) : List α → Option (List α)
  | [] => some [a]
  | b :: bs =>
    match le a b with
    | none => none
    | some true => some (a :: b :: bs)
    | some false => (insertSortedM le a bs).map (fun l => b :: l)

/-- Insertion sort under a fallible order. -/
def sortM (le : α → α → Option Bool) : List α → Option (List α)
  | [] => some []
  | a :: as =>
    match sortM le as with
    | none => none
    | some l => insertSortedM le a l

/-- `optMapList f l` maps a fallible function over a list, failing as a
whole when any element fails (explicit version of `mapM` over `Option`,
kept first-order for clean equations). -/
def optMapList (f : α → Option β) : List α → Option (List β)
  | [] => some []
  | a :: as =>
    match f a, optMapList f as with
    | some b, some bs => some (b :: bs)
    | _, _ => none

/-- All numeric contents of a cell list, when every cell is numeric. -/
def allNumsQ (l : List Cell) : Option (List ℚ) := optMapList cellNumQ l

/-- All texts of a cell list, when every cell is text. -/
def allStrs (l : List Cell) : Option (List String) :=
  optMapList (fun c => match c with | .str s => some s | _ => none) l

/-- `sum` over the non-missing cells of an object column: numeric cells
add (any non-integer makes the result non-integer, as Python promotes to
float), text cells concatenate, a mix raises (`none`); an empty or
all-missing column sums to `0` (pandas `min_count=0`). -/
def sumCells (nn : List Cell) : Option Cell :=
  if nn.isEmpty then some (.int 0)
  else
    match optMapList (fun c => match c with | .int n => some n | _ => none) nn with
    | some ns => some (.int ns.sum)
    | none =>
      match allNumsQ nn with
      | some qs => some (.rat qs.sum)
      | none =>
        match allStrs nn with
        | some ss => some (.str (String.join ss))
        | none => none

/-- `max` over the non-missing cells (an all-missing group yields `NaN`;
incomparable cells raise). -/
def maxCells (nn : List Cell) : Option Cell :=
  match nn with
  | [] => some .null
  | a :: rest =>
    rest.foldlM (fun acc c => (cellOrd acc c).map (fun o => if o = .lt then c else acc)) a

/-- `min` over the non-missing cells. -/
def minCells (nn : List Cell) : Option Cell :=
  match nn with
  | [] => some .null
  | a :: rest =>
    rest.foldlM (fun acc c => (cellOrd acc c).map (fun o => if o = .gt then c else acc)) a

/-- Apply one aggregation function to the cells of a column restricted to
one group, as `groupby(...).agg` computes it: missing values are skipped
first (`skipna`); `count` is the number of non-missing entries; `nunique`
the number of distinct non-missing entries; `mean` is `NaN` on an empty
group and raises on text. -/
def aggApply (fn : String) (vals : List Cell) : Option Cell :=
  let nn := vals.filter (fun c => decide (c ≠ .null))
  if fn = "count" then some (.int nn.length)
  else if fn = "nunique" then some (.int nn.dedup.length)
  else if fn = "sum" then sumCells nn
  else if fn = "mean" then
    match allNumsQ nn with
    | some qs => if qs.isEmpty then some .null else some (.rat (qs.sum / (qs.length : ℚ)))
    | none => none
  else if fn = "max" then maxCells nn
  else if fn = "min" then minCells nn
  else none

/-- The cells of column `c` over the rows of the group with key `k`. -/
def groupCells (w : DataFrame) (bys : List String) (k : List Cell) (c : String) : List Cell :=
  (w.rows.filter (fun r => decide (keyOf w.cols bys r = k))).map (cellAt w.cols c)

/-- The aggregated cells (in `agg_map` order) for the group with key `k`. -/
def aggRow (w : DataFrame) (bys : List String) (am : List (String × String × String))
    (k : List Cell) : Option (List Cell) :=
  optMapList (fun e => aggApply e.2.2 (groupCells w bys k e.2.1)) am

/-- The grouping stage (`query_handler.py` lines 192-220): activates only
when both a non-empty resolved `by` list and a non-empty `agg_map` exist;
the working table is replaced by one row per distinct key combination
(keys sorted ascending with missing keys last, as
`groupby(..., dropna=False)` with its default `sort=True` orders them),
columns `by`-columns ++ aliases.  `reset_index()` raises when an alias
collides with a grouping column; key sorting raises on incomparable
mixed-type keys.  Also returns the `sql_select_parts` audit fragments. -/
def groupStep (w : DataFrame) (gb : Option GroupSpec) : Option (DataFrame × List String) :=
  match gb with
  | none => some (w, [])
  | some g =>
    if (resolvedBys w g).isEmpty ∨ (buildAggMap w.cols g.agg).isEmpty then some (w, [])
    else if (buildAggMap w.cols g.agg).any (fun e => decide (e.1 ∈ resolvedBys w g)) then none
    else
      match sortM keyLe ((w.rows.map (keyOf w.cols (resolvedBys w g))).dedup) with
      | none => none
      | some ks =>
        match optMapList
            (fun k => (aggRow w (resolvedBys w g) (buildAggMap w.cols g.agg) k).map
              (fun vals => k ++ vals)) ks with
        | none => none
        | some rs =>
          some (⟨resolvedBys w g ++ (buildAggMap w.cols g.agg).map (·.1), rs⟩,
                resolvedBys w g ++ (buildAggMap w.cols g.agg).map (fun e =>
                  (if e.2.2 = "count" then "COUNT(" else upperStr e.2.2 ++ "(")
                    ++ e.2.1 ++ ") AS " ++ e.1))

/-- `select_cols = [c for c in select_cols if c in working.columns]`. -/
def selCols (w : DataFrame) (sel : List String) : List String :=
  sel.filter (fun c => decide (c ∈ w.cols))

/-- The projection stage (`query_handler.py` lines 222-227): a non-empty
`select_cols` is first restricted to existing columns; if anything
remains the working table is projected to those columns in the given
order.  Also returns the restricted list (the reassigned `select_cols`
variable, which the audit string later uses). -/
def selectStep (w : DataFrame) (sel : List String) : DataFrame × List String :=
  if sel.isEmpty then (w, [])
  else if (selCols w sel).isEmpty then (w, selCols w sel)
  else (⟨selCols w sel,
         w.rows.map (fun r => (selCols w sel).map (fun c => cellAt w.cols c r))⟩,
        selCols w sel)

/-- Row order for `sort_values(by=c, ascending=asc)`: missing keys sort
last for either direction (`na_position="last"`), other keys by
`cellOrd`; incomparable mixed-type keys raise.  (Tie order among equal
keys is not load-bearing in any theorem; the model sorts stably.) -/
def rowLe (idx : Nat) (asc : Bool) (r1 r2 : List Cell) : Option Bool :=
  let a := r1.getD idx Cell.null
  let b := r2.getD idx Cell.null
  match a, b with
  | .null, .null => some true
  | .null, _ => some false
  | _, .null => some true
  | _, _ => (cellOrd a b).map (fun o => if asc then decide (o ≠ .gt) else decide (o ≠ .lt))

/-- The sort stage (`query_handler.py` lines 229-237): only acts when the
sort column is a current working-table column; default direction is
descending.  Returns the `ORDER BY` audit clause (empty when skipped). -/
def sortStep (w : DataFrame) (s : Option SortSpec) : Option (DataFrame × String) :=
  match s with
  | none => some (w, "")
  | some sp =>
    match sp.col with
    | none => some (w, "")
    | some c =>
      if c ∈ w.cols then
        match sortM (rowLe (colIdx w.cols c) sp.ascending) w.rows with
        | none => none
        | some rs =>
          some ({ w with rows := rs },
                "ORDER BY " ++ c ++ " " ++ (if sp.ascending then "ASC" else "DESC"))
      else some (w, "")

/-- Python `int(x)` on a plan value: integers pass, integer-literal text
parses, everything else raises (`none`). -/
def pyInt : PlanVal → Option Int
  | .vint n => some n
  | .vstr s =>
    (match (pyStrip s).data with
     | '-' :: l => if l.isEmpty ∨ ¬ l.all Char.isDigit then none
                   else some (-((natOfDigits l : Nat) : Int))
     | '+' :: l => if l.isEmpty ∨ ¬ l.all Char.isDigit then none
                   else some ((natOfDigits l : Nat) : Int)
     | l => if l.isEmpty ∨ ¬ l.all Char.isDigit then none
            else some ((natOfDigits l : Nat) : Int))
  | _ => none

/-- `limit = plan.get("limit", 10)` followed by `int(limit)` with a
`try/except` fallback to 10. -/
def limitVal (l : Option PlanVal) : Int :=
  match l with
  | none => 10
  | some v => (pyInt v).getD 10

/-- Assemble the SQL-like audit string exactly as the source f-string
does (including its double spaces for empty parts, trimmed only at the
ends). -/
def assembleSql (parts : List String) (sel : List String) (wcs : List String)
    (ord : String) (lim : Int) : String :=
  let sqlSelect :=
    if !parts.isEmpty then String.intercalate (", ") parts
    else if !sel.isEmpty then String.intercalate (", ") sel
    else "*"
  let sqlWhere := if !wcs.isEmpty then "WHERE " ++ String.intercalate (" AND ") wcs else ""
  let sqlLimit := if lim ≠ 0 then "LIMIT " ++ toString lim else ""
  pyStrip ("SELECT " ++ sqlSelect ++ " FROM merged_df " ++ sqlWhere ++ " " ++ ord ++ " " ++ sqlLimit)

/-- The executor (`query_handler.py` lines 101-255): filter stage, then
grouping, projection, sort, and limit, returning the result table and
the audit string; `none` models an exception escaping the function. -/
def execute_query_plan (df : DataFrame) (plan : Plan) : Option (DataFrame × String) :=
  match runFilters df plan.filters with
  | none => none
  | some (w1, wcs) =>
    match groupStep w1 plan.groupby with
    | none => none
    | some (w2, parts) =>
      let ws := selectStep w2 plan.select_cols
      match sortStep ws.1 plan.sort with
      | none => none
      | some (w4, ord) =>
        let lim := limitVal plan.limit
        let w5 := if 0 < lim then { w4 with rows := w4.rows.take lim.toNat } else w4
        some (w5, assembleSql parts ws.2 wcs ord lim)

/-- The working table right after the grouping stage (the state against
which `select_cols` entries are checked). -/
def midState (df : DataFrame) (plan : Plan) : Option DataFrame :=
  match runFilters df plan.filters with
  | none => none
  | some (w1, _) =>
    match groupStep w1 plan.groupby with
    | none => none
    | some (w2, _) => some w2

/-- The working table right after the projection stage (the state against
which the sort column is checked). -/
def preSortState (df : DataFrame) (plan : Plan) : Option DataFrame :=
  (midState df plan).map (fun w => (selectStep w plan.select_cols).1)

/-- `_normalize` (`query_handler.py` lines 70-71): lower-case, then keep
only ASCII letters and digits (the `.strip()` of the source is subsumed,
since whitespace is removed anyway; the Unicode corners of Python
`.lower()` are not modeled). -/
def normalize (s : String) : String :=
  String.mk ((s.data.map lowerChar).filter fun c =>
    ('a' ≤ c ∧ c ≤ 'z') ∨ ('0' ≤ c ∧ c ≤ '9'))

/-- `norm_cols = {_normalize(c): c for c in cols}`: a later column with
the same normalized form overwrites an earlier one (Python dict). -/
def normDict (cols : List String) : List (String × String) :=
  cols.foldl (fun m c => dictInsert (normalize c) c m) []

/-- First pass of `_best_col_match`: the first candidate whose normalized
form is a key of `norm_cols` wins, yielding the stored original column. -/
def firstExact (nd : List (String × String)) : List String → Option String
  | [] => none
  | c :: cs =>
    match lookupDict nd (normalize c) with
    | some orig => some orig
    | none => firstExact nd cs

/-- Second pass: for each candidate in order, scan the normalized columns
in dict order and return the first where either normalized string
contains the other (empty candidates are skipped by the `nc and ...`
truthiness guard). -/
def firstContains (nd : List (String × String)) : List String → Option String
  | [] => none
  | c :: cs =>
    let nc := normalize c
    match nd.find? (fun e => !nc.isEmpty &&
        (listInfix nc.data e.1.data || listInfix e.1.data nc.data)) with
    | some e => some e.2
    | none => firstContains nd cs

/-- `_best_col_match` (`query_handler.py` lines 73-94): exact pass over
all candidates first, containment pass second. -/
def best_col_match (cols : List String) (cands : List String) : Option String :=
  match firstExact (normDict cols) cands with
  | some r => some r
  | none => firstContains (normDict cols) cands

/-- A Python value as `make_json_safe` sees it.  NumPy scalars and arrays
are separate constructors from the plain Python primitives, because the
source branches on `isinstance` checks that distinguish exactly these.
Floats (plain or NumPy) carry a finiteness flag (`false` = NaN or ±inf)
and a rational payload standing in for the finite value.  A `Timestamp`
is modeled by its ISO text; dict keys are modeled as already-text
(`str(k)` is the identity on the string keys all modeled inputs have);
tuples behave as lists. -/
inductive PyVal where
  | none
  | NaT
  | timestamp (iso : String)
  | npInt (n : Int)
  | npFloat (finite : Bool) (q : ℚ)
  | npBool (b : Bool)
  | npArray (xs : List PyVal)
  | dict (kvs : List (String × PyVal))
  | list (xs : List PyVal)
  | str (s : String)
  | int (n : Int)
  | float (finite : Bool) (q : ℚ)
  | bool (b : Bool)

mutual
/-- Decidable equality for `PyVal` (manual because of the nesting). -/
def PyVal.beq : PyVal → PyVal → Bool
  | .none, .none => true
  | .NaT, .NaT => true
  | .timestamp s, .timestamp t => s == t
  | .npInt m, .npInt n => m == n
  | .npFloat f p, .npFloat g q => f == g && p == q
  | .npBool a, .npBool b => a == b
  | .npArray xs, .npArray ys => PyVal.beqList xs ys
  | .dict xs, .dict ys => PyVal.beqDict xs ys
  | .list xs, .list ys => PyVal.beqList xs ys
  | .str s, .str t => s == t
  | .int m, .int n => m == n
  | .float f p, .float g q => f == g && p == q
  | .bool a, .bool b => a == b
  | _, _ => false

def PyVal.beqList : List PyVal → List PyVal → Bool
  | [], [] => true
  | x :: xs, y :: ys => PyVal.beq x y && PyVal.beqList xs ys
  | _, _ => false

def PyVal.beqDict : List (String × PyVal) → List (String × PyVal) → Bool
  | [], [] => true
  | (k, x) :: xs, (k', y) :: ys => k == k' && PyVal.beq x y && PyVal.beqDict xs ys
  | _, _ => false
end

mutual
/-- NumPy `.tolist()` conversion of one element: NumPy scalars become the
corresponding plain Python values (finiteness of floats is preserved -
this is where a NaN inside an array escapes the NumPy-float check),
nested arrays become lists, other objects pass through. -/
def npToPy : PyVal → PyVal
  | .npInt n => .int n
  | .npFloat f q => .float f q
  | .npBool b => .bool b
  | .npArray xs => .list (npToPyList xs)
  | v => v

def npToPyList : List PyVal → List PyVal
  | [] => []
  | x :: xs => npToPy x :: npToPyList xs
end

mutual
/-- `make_json_safe` (`query_handler.py` lines 24-63): `None` and `NaT`
to null, `Timestamp` to its ISO text, NumPy integers/bools unwrap, NumPy
floats unwrap when finite and map to null otherwise, NumPy arrays go
through `.tolist()` and recurse, dicts recurse on values with keys
`str`-coerced (identity here), lists recurse, and every other primitive -
including a plain Python float, finite or not - falls through
unchanged. -/
def make_json_safe : PyVal → PyVal
  | .none => .none
  | .NaT => .none
  | .timestamp s => .str s
  | .npInt n => .int n
  | .npFloat f q => if f then .float true q else .none
  | .npBool b => .bool b
  | .npArray xs => .list (mjsTolistList xs)
  | .dict kvs => .dict (mjsDict kvs)
  | .list xs => .list (mjsList xs)
  | .str s => .str s
  | .int n => .int n
  | .float f q => .float f q
  | .bool b => .bool b

/-- `make_json_safe` mapped over a list. -/
def mjsList : List PyVal → List PyVal
  | [] => []
  | x :: xs => make_json_safe x :: mjsList xs

/-- `make_json_safe` mapped over dict values. -/
def mjsDict : List (String × PyVal) → List (String × PyVal)
  | [] => []
  | (k, v) :: kvs => (k, make_json_safe v) :: mjsDict kvs

/-- `[make_json_safe(x) for x in obj.tolist()]`: `make_json_safe` after
the `.tolist()` conversion, fused for structural recursion (the fusion is
proved correct in `mjsTolist_eq` below; `.tolist()` is the identity on
the non-NumPy constructors, where this coincides with `make_json_safe`). -/
def mjsTolist : PyVal → PyVal
  | .npInt n => .int n
  | .npFloat f q => .float f q
  | .npBool b => .bool b
  | .npArray ys => .list (mjsTolistList ys)
  | .none => .none
  | .NaT => .none
  | .timestamp s => .str s
  | .dict kvs => .dict (mjsDict kvs)
  | .list xs => .list (mjsList xs)
  | .str s => .str s
  | .int n => .int n
  | .float f q => .float f q
  | .bool b => .bool b

def mjsTolistList : List PyVal → List PyVal
  | [] => []
  | x :: xs => mjsTolist x :: mjsTolistList xs
end

mutual
/-- Does a value contain no NumPy/pandas-specific constructor?  (The
output shape the normalizer is meant to guarantee.) -/
def npFree : PyVal → Bool
  | .none => true
  | .NaT => false
  | .timestamp _ => false
  | .npInt _ => false
  | .npFloat _ _ => false
  | .npBool _ => false
  | .npArray _ => false
  | .dict kvs => npFreeDict kvs
  | .list xs => npFreeList xs
  | .str _ => true
  | .int _ => true
  | .float _ _ => true
  | .bool _ => true

def npFreeList : List PyVal → Bool
  | [] => true
  | x :: xs => npFree x && npFreeList xs

def npFreeDict : List (String × PyVal) → Bool
  | [] => true
  | (_, v) :: kvs => npFree v && npFreeDict kvs
end

/-- A JSON value (`json.loads` result). -/
inductive Json where
  | null
  | bool (b : Bool)
  | num (q : ℚ)
  | str (s : String)
  | arr (xs : List Json)
  | obj (kvs : List (String × Json))

mutual
def Json.beq : Json → Json → Bool
  | .null, .null => true
  | .bool a, .bool b => a == b
  | .num p, .num q => p == q
  | .str s, .str t => s == t
  | .arr xs, .arr ys => Json.beqList xs ys
  | .obj xs, .obj ys => Json.beqDict xs ys
  | _, _ => false

def Json.beqList : List Json → List Json → Bool
  | [], [] => true
  | x :: xs, y :: ys => Json.beq x y && Json.beqList xs ys
  | _, _ => false

def Json.beqDict : List (String × Json) → List (String × Json) → Bool
  | [], [] => true
  | (k, x) :: xs, (k', y) :: ys => k == k' && Json.beq x y && Json.beqDict xs ys
  | _, _ => false
end

/-- The opening brace character. -/
def lbrace : Char := Char.ofNat 123

/-- The closing brace character. -/
def rbrace : Char := Char.ofNat 125

/-- JSON whitespace. -/
def jsonWs (c : Char) : Bool :=
  c = ' ' || c = '\n' || c = '\t' || c = '\r'

/-- Skip JSON whitespace. -/
def skipWs (cs : List Char) : List Char :=
  cs.dropWhile jsonWs

/-- One JSON string escape. -/
def escChar (c : Char) : Option Char :=
  if c = '"' ∨ c = '\\' ∨ c = '/' then some c
  else if c = 'n' then some '\n'
  else if c = 't' then some '\t'
  else if c = 'r' then some '\r'
  else if c = 'b' then some (Char.ofNat 8)
  else if c = 'f' then some (Char.ofNat 12)
  else Option.none

/-- Parse the remainder of a JSON string literal (after the opening
quote); `\uXXXX` escapes are not modeled and make parsing fail (never
load-bearing). -/
def parseStringRest : Nat → List Char → Option (String × List Char)
  | 0, _ => Option.none
  | _ + 1, [] => Option.none
  | _ + 1, '"' :: r => some ("", r)
  | fuel + 1, '\\' :: e :: r =>
    match escChar e with
    | some ec => (parseStringRest fuel r).map (fun p => (String.mk (ec :: p.1.data), p.2))
    | Option.none => Option.none
  | _ + 1, ['\\'] => Option.none
  | fuel + 1, c :: r =>
    (parseStringRest fuel r).map (fun p => (String.mk (c :: p.1.data), p.2))

/-- Parse a JSON number (sign, digits, optional fraction; exponent
notation and the leading-zero restriction are not modeled - never
load-bearing). -/
def parseJsonNum (cs : List Char) : Option (Json × List Char) :=
  let core : List Char → Option (ℚ × List Char) := fun l =>
    let ip := l.takeWhile Char.isDigit
    let rest := l.dropWhile Char.isDigit
    if ip.isEmpty then Option.none
    else
      let ipq : ℚ := (ip.foldl (fun a c => a * 10 + (c.toNat - 48)) 0 : Nat)
      match rest with
      | '.' :: fp =>
        let fd := fp.takeWhile Char.isDigit
        let rest' := fp.dropWhile Char.isDigit
        if fd.isEmpty then Option.none
        else some (ipq + ((fd.foldl (fun a c => a * 10 + (c.toNat - 48)) 0 : Nat) : ℚ)
                      / ((10 : ℚ) ^ fd.length), rest')
      | _ => some (ipq, rest)
  match cs with
  | '-' :: l => (core l).map (fun p => (Json.num (-p.1), p.2))
  | l => (core l).map (fun p => (Json.num p.1, p.2))

mutual
/-- Recursive-descent JSON value parser (fueled; the fuel bounds the
recursion depth and is chosen larger than any input's length). -/
def parseVal : Nat → List Char → Option (Json × List Char)
  | 0, _ => Option.none
  | fuel + 1, cs =>
    match skipWs cs with
    | [] => Option.none
    | 'n' :: 'u' :: 'l' :: 'l' :: r => some (.null, r)
    | 't' :: 'r' :: 'u' :: 'e' :: r => some (.bool true, r)
    | 'f' :: 'a' :: 'l' :: 's' :: 'e' :: r => some (.bool false, r)
    | '"' :: r => (parseStringRest fuel r).map (fun p => (Json.str p.1, p.2))
    | '[' :: r =>
      (match skipWs r with
       | ']' :: r' => some (.arr [], r')
       | l => (parseElems fuel l).map (fun p => (Json.arr p.1, p.2)))
    | c :: r =>
      if c = lbrace then
        match skipWs r with
        | d :: r' =>
          if d = rbrace then some (.obj [], r')
          else (parseMembers fuel (d :: r')).map (fun p => (Json.obj p.1, p.2))
        | [] => Option.none
      else if c = '-' ∨ c.isDigit then parseJsonNum (c :: r)
      else Option.none

/-- Parse one or more array elements. -/
def parseElems : Nat → List Char → Option (List Json × List Char)
  | 0, _ => Option.none
  | fuel + 1, cs =>
    match parseVal fuel cs with
    | Option.none => Option.none
    | some (v, r) =>
      match skipWs r with
      | ',' :: r' => (parseElems fuel r').map (fun p => (v :: p.1, p.2))
      | ']' :: r' => some ([v], r')
      | _ => Option.none

/-- Parse one or more object members. -/
def parseMembers : Nat → List Char → Option (List (String × Json) × List Char)
  | 0, _ => Option.none
  | fuel + 1, cs =>
    match skipWs cs with
    | '"' :: r =>
      (match parseStringRest fuel r with
       | Option.none => Option.none
       | some (k, r1) =>
         match skipWs r1 with
         | ':' :: r2 =>
           (match parseVal fuel r2 with
            | Option.none => Option.none
            | some (v, r3) =>
              match skipWs r3 with
              | ',' :: r4 => (parseMembers fuel r4).map (fun p => ((k, v) :: p.1, p.2))
              | d :: r4 => if d = rbrace then some ([(k, v)], r4) else Option.none
              | [] => Option.none)
         | _ => Option.none)
    | _ => Option.none
end

/-- `json.loads`: parse one JSON value and require only whitespace to
remain. -/
def jsonParse (s : String) : Option Json :=
  match parseVal (2 * s.length + 8) s.data with
  | some (v, rest) => if (skipWs rest).isEmpty then some v else Option.none
  | Option.none => Option.none

/-- The two failure modes of `_extract_json`: the explicit
`ValueError("No JSON found...")` and a `json.JSONDecodeError` escaping
from `json.loads`. -/
inductive ExtractErr where
  | noJson
  | decodeErr
deriving DecidableEq, Repr

/-- Does the text start with the given character? -/
def pyStartsWith (t : String) (c : Char) : Bool :=
  match t.data with
  | [] => false
  | d :: _ => d == c

/-- Does the text end with the given character? -/
def pyEndsWith (t : String) (c : Char) : Bool :=
  match t.data.reverse with
  | [] => false
  | d :: _ => d == c

/-- `re.search(r"\x7b.*\x7d", text, flags=re.DOTALL)`: leftmost-greedy,
i.e. the substring from the *first* opening brace to the *last* closing
brace of the whole text (when one exists after it). -/
def braceSpan (t : String) : Option String :=
  match t.data.findIdx? (fun c => c == lbrace),
        (t.data.reverse.findIdx? (fun c => c == rbrace)).map (fun k => t.data.length - 1 - k) with
  | some i, some j =>
    if i < j then some (String.mk ((t.data.drop i).take (j - i + 1))) else Option.none
  | _, _ => Option.none

/-- `_extract_json` (`query_handler.py` lines 262-273): strip; if the
text starts with `\x7b` and ends with `\x7d`, `json.loads` the whole
text (a parse failure escapes as `JSONDecodeError`); otherwise search for
the greedy brace span and `json.loads` it, raising the distinct
`ValueError` when no span exists. -/
def extract_json (text : String) : Except ExtractErr Json :=
  let t := pyStrip text
  if pyStartsWith t lbrace ∧ pyEndsWith t rbrace then
    match jsonParse t with
    | some j => .ok j
    | Option.none => .error .decodeErr
  else
    match braceSpan t with
    | Option.none => .error .noJson
    | some s =>
      match jsonParse s with
      | some j => .ok j
      | Option.none => .error .decodeErr

/-- Is a plan value a list? -/
def PlanVal.isList : PlanVal → Bool
  | .vlist _ => true
  | _ => false

/-- The aliases of the valid aggregations of a plan (aggregations whose
column exists in the dataset schema and whose function is recognized) -
the only names an executed plan can add to the schema. -/
def validAliases (df : DataFrame) (pl : Plan) : List String :=
  match pl.groupby with
  | none => []
  | some g => (buildAggMap df.cols g.agg).map (·.1)

/- Concrete instances used by individual claim theorems. -/

/-- A one-column, one-row dataset. -/
def c1df : DataFrame := ⟨["a"], [[Cell.int 3]]⟩

/-- The empty plan. -/
def c1plan : Plan := {}

/-- A two-column dataset for the projection-after-grouping example. -/
def c2df : DataFrame := ⟨["sector", "id"], [[Cell.str "h", Cell.int 1]]⟩

/-- Group by `sector`, count `id` as `n`, then select the alias `n` -
a select entry absent from the *dataset* schema but present in the
post-grouping working table. -/
def c2plan : Plan :=
  { groupby := some { bys := ["sector"],
                      agg := [{ col := some "id", fn := some "count", asName := some "n" }] },
    select_cols := ["n"] }

/-- An empty dataset and a filter on a nonexistent column (for the
fragment-removal witness). -/
def c2wdf : DataFrame := ⟨["a"], [[Cell.str "v"]]⟩

/-- A plan whose only filter references a column not in `c2wdf`. -/
def c2wplan : Plan :=
  { filters := [{ col := some "zz", op := some "contains", value := .vstr "q" }] }

/-- A one-column dataset with a single text row. -/
def c3df : DataFrame := ⟨["c"], [[Cell.str "x"]]⟩

/-- An `in` filter whose value is the bare integer `5`. -/
def c3plan : Plan :=
  { filters := [{ col := some "c", op := some "in", value := .vint 5 }] }

/-- The same filter with the value wrapped as the singleton list `[5]`. -/
def c3planList : Plan :=
  { filters := [{ col := some "c", op := some "in", value := .vlist [.vint 5] }] }

/-- A one-column dataset whose single row is missing. -/
def c4df : DataFrame := ⟨["c"], [[Cell.null]]⟩

/-- A case-insensitive `contains "a"` filter. -/
def c4plan : Plan :=
  { filters := [{ col := some "c", op := some "contains", value := .vstr "a" }] }

/-- The same filter with `case_insensitive=False`. -/
def c4planCS : Plan :=
  { filters := [{ col := some "c", op := some "contains", value := .vstr "a",
                  case_insensitive := false }] }

/-- An 11-row dataset (one more than the default limit). -/
def c5df : DataFrame :=
  ⟨["a", "b"], (List.range 11).map (fun i => [Cell.int i, Cell.str "t"])⟩

/-- A plan whose only populated field is `select_cols`. -/
def c5plan : Plan := { select_cols := ["a"] }

/-- A two-row dataset for the projection witness. -/
def c5wdf : DataFrame :=
  ⟨["a", "b"], [[Cell.int 1, Cell.str "u"], [Cell.int 2, Cell.str "v"]]⟩

/-- Planner-response text containing two top-level JSON objects. -/
def c6text : String := "note \x7b\"x\": 1\x7d and \x7b\"y\": 2\x7d"

/-- The first top-level JSON object embedded in `c6text`. -/
def c6obj : String := "\x7b\"x\": 1\x7d"

/-- A date-text column with one missing entry. -/
def c8df : DataFrame :=
  ⟨["d"], [[Cell.str "2024-01-02"], [Cell.str "2023-01-01"], [Cell.null]]⟩

/-- A `gt` filter whose scalar value is date-like text (numeric coercion
fails, chronological coercion succeeds). -/
def c8f : FilterClause := { col := some "d", op := some "gt", value := .vstr "2023-06-01" }

/-- The sector/id example table of the grouping claim. -/
def c9df : DataFrame :=
  ⟨["sector", "id"],
   [[Cell.str "health", Cell.int 1], [Cell.str "health", Cell.int 2],
    [Cell.str "finance", Cell.int 3]]⟩

/-- `by=["sector"], agg=[{col: "id", fn: "count", as: "n"}]`. -/
def c9gb : GroupSpec :=
  { bys := ["sector"], agg := [{ col := some "id", fn := some "count", asName := some "n" }] }

/-- The grouping example as a full plan. -/
def c9plan : Plan := { groupby := some c9gb }

/-- The aliases a grouping spec can contribute to the schema. -/
def gbAliases (w : DataFrame) : Option GroupSpec → List String
  | some g => (buildAggMap w.cols g.agg).map (·.1)
  | none => []

/-! Helper lemmas about the executor stages. -/

/-- Filtering never changes the schema of the working table. -/
theorem applyFilter_cols (w : DataFrame) (f : FilterClause) (p : DataFrame × List String)
    (h : applyFilter w f = some p) : p.1.cols = w.cols := by
  rcases f with ⟨fc, fo, fv, fci⟩
  rcases fc with _ | c <;> rcases fo with _ | op
  · cases h; rfl
  · cases h; rfl
  · cases h; rfl
  unfold applyFilter at h
  simp only at h
  by_cases hg : c = "" ∨ op = "" ∨ ¬ c ∈ w.cols
  · rw [if_pos hg] at h; cases h; rfl
  rw [if_neg hg] at h
  by_cases h1 : op = "contains"
  · rw [if_pos h1] at h; cases h; rfl
  rw [if_neg h1] at h
  by_cases h2 : op = "equals"
  · rw [if_pos h2] at h; cases h; rfl
  rw [if_neg h2] at h
  by_cases h3 : op = "in"
  · rw [if_pos h3] at h
    rcases hre : reprElems fv with _ | es <;> rw [hre] at h
    · cases h
    · cases h; rfl
  rw [if_neg h3] at h
  by_cases h4 : op = "gt" ∨ op = "gte" ∨ op = "lt" ∨ op = "lte"
  · rw [if_pos h4] at h
    rcases hnv : toNumVal fv with _ | q <;> rw [hnv] at h
    · rcases hdv : toDateVal fv with _ | d <;> rw [hdv] at h <;>
        rcases fv with _ | s | n | xs <;>
        first | (cases h; rfl) | cases h
    · cases h; rfl
  · rw [if_neg h4] at h; cases h; rfl

/-- A filter clause whose column is absent from the working table is
skipped outright. -/
theorem applyFilter_skip (w : DataFrame) (f : FilterClause) (c : String)
    (hc : f.col = some c) (habs : c ∉ w.cols) : applyFilter w f = some (w, []) := by
  unfold applyFilter
  rw [hc]
  cases hop : f.op with
  | none => rfl
  | some op => simp [habs]

/-- The filter stage never changes the schema. -/
theorem runFilters_cols (fs : List FilterClause) (w : DataFrame) (p : DataFrame × List String)
    (h : runFilters w fs = some p) : p.1.cols = w.cols := by
  induction fs generalizing w p with
  | nil => cases h; rfl
  | cons f fs ih =>
    unfold runFilters at h
    split at h
    · cases h
    · rename_i w' cs hf
      split at h
      · cases h
      · rename_i w'' rest hr
        cases h
        exact (ih _ _ hr).trans (applyFilter_cols w f (w', cs) hf)

/-- The filter stage splits over list append. -/
theorem runFilters_append (xs ys : List FilterClause) (w : DataFrame) :
    runFilters w (xs ++ ys) =
      match runFilters w xs with
      | none => none
      | some (w1, c1) =>
          match runFilters w1 ys with
          | none => none
          | some (w2, c2) => some (w2, c1 ++ c2) := by
  induction xs generalizing w with
  | nil =>
    simp only [List.nil_append, runFilters]
    cases hys : runFilters w ys with
    | none => rfl
    | some p => obtain ⟨w2, c2⟩ := p; simp
  | cons f fs ih =>
    simp only [List.cons_append, runFilters]
    cases hf : applyFilter w f with
    | none => rfl
    | some p =>
      obtain ⟨w', cs⟩ := p
      simp only [List.append_eq]
      rw [ih w']
      cases hx : runFilters w' fs with
      | none => rfl
      | some q =>
        obtain ⟨w1, c1⟩ := q
        cases hy : runFilters w1 ys with
        | none => simp [hy]
        | some r => obtain ⟨w2, c2⟩ := r; simp [hy, List.append_assoc]

/-- Membership in the restricted select list implies membership in the
schema. -/
theorem mem_selCols (w : DataFrame) (sel : List String) (c : String)
    (h : c ∈ selCols w sel) : c ∈ w.cols := by
  simp only [selCols, List.mem_filter] at h
  exact of_decide_eq_true h.2

/-- Membership in the resolved `by` list implies membership in the
schema. -/
theorem mem_resolvedBys (w : DataFrame) (g : GroupSpec) (c : String)
    (h : c ∈ resolvedBys w g) : c ∈ w.cols := by
  simp only [resolvedBys, List.mem_filter] at h
  exact of_decide_eq_true h.2

/-- Projection only keeps existing columns. -/
theorem selectStep_cols_sub (w : DataFrame) (sel : List String) :
    ∀ c ∈ (selectStep w sel).1.cols, c ∈ w.cols := by
  intro c hc
  unfold selectStep at hc
  split at hc
  · exact hc
  · split at hc
    · exact hc
    · exact mem_selCols w sel c hc

/-- Sorting never changes the schema. -/
theorem sortStep_cols (w : DataFrame) (s : Option SortSpec) (p : DataFrame × String)
    (h : sortStep w s = some p) : p.1.cols = w.cols := by
  cases s with
  | none => cases h; rfl
  | some sp =>
    simp only [sortStep] at h
    cases hsc : sp.col with
    | none => simp only [hsc] at h; cases h; rfl
    | some c =>
      simp only [hsc] at h
      by_cases hmem : c ∈ w.cols
      · simp only [if_pos hmem] at h
        cases hs : sortM (rowLe (colIdx w.cols c) sp.ascending) w.rows with
        | none => simp only [hs] at h; exact Option.noConfusion h
        | some rs => simp only [hs] at h; cases h; rfl
      · simp only [if_neg hmem] at h; cases h; rfl

/-- Every column of the grouped working table is either an original
column or an alias of the built aggregation map. -/
theorem groupStep_cols (w : DataFrame) (gb : Option GroupSpec) (p : DataFrame × List String)
    (h : groupStep w gb = some p) :
    ∀ c ∈ p.1.cols, c ∈ w.cols ∨ c ∈ gbAliases w gb := by
  intro c hc
  cases gb with
  | none => cases h; exact Or.inl hc
  | some g =>
    simp only [groupStep] at h
    by_cases h0 : (resolvedBys w g).isEmpty = true ∨ (buildAggMap w.cols g.agg).isEmpty = true
    · rw [if_pos h0] at h; cases h; exact Or.inl hc
    rw [if_neg h0] at h
    split at h
    · cases h
    cases hs : sortM keyLe ((w.rows.map (keyOf w.cols (resolvedBys w g))).dedup) with
    | none => simp only [hs] at h; exact Option.noConfusion h
    | some ks =>
      simp only [hs] at h
      cases hm : optMapList
          (fun k => (aggRow w (resolvedBys w g) (buildAggMap w.cols g.agg) k).map
            (fun vals => k ++ vals)) ks with
      | none => simp only [hm] at h; exact Option.noConfusion h
      | some rs =>
        simp only [hm] at h
        cases h
        rcases List.mem_append.mp hc with hby | hal
        · exact Or.inl (mem_resolvedBys w g c hby)
        · exact Or.inr hal

/-- Ordered insertion produces a permutation of consing. -/
theorem insertSortedM_perm (le : α → α → Option Bool) (a : α) (l l' : List α)
    (h : insertSortedM le a l = some l') : l'.Perm (a :: l) := by
  induction l generalizing l' with
  | nil => cases h; exact List.Perm.refl _
  | cons b bs ih =>
    unfold insertSortedM at h
    split at h
    · cases h
    · cases h; exact List.Perm.refl _
    · cases hrec : insertSortedM le a bs with
      | none => rw [hrec] at h; cases h
      | some l'' =>
        rw [hrec] at h
        cases h
        exact (List.Perm.cons b (ih l'' hrec)).trans (List.Perm.swap a b bs)

/-- Fallible insertion sort permutes its input. -/
theorem sortM_perm (le : α → α → Option Bool) (l l' : List α)
    (h : sortM le l = some l') : l'.Perm l := by
  induction l generalizing l' with
  | nil => cases h; exact List.Perm.refl _
  | cons a as ih =>
    unfold sortM at h
    split at h
    · cases h
    · rename_i s hs
      exact (insertSortedM_perm le a s l' h).trans (List.Perm.cons a (ih s hs))

/-- `optMapList` preserves length. -/
theorem optMapList_length (f : α → Option β) (l : List α) (l' : List β)
    (h : optMapList f l = some l') : l'.length = l.length := by
  induction l generalizing l' with
  | nil => cases h; rfl
  | cons a as ih =>
    unfold optMapList at h
    split at h
    · rename_i b bs hb hbs
      cases h
      simp [ih bs hbs]
    · cases h

/-- Elementwise content of a successful `optMapList`. -/
theorem optMapList_mem (f : α → Option β) (l : List α) (l' : List β)
    (h : optMapList f l = some l') : ∀ b ∈ l', ∃ a ∈ l, f a = some b := by
  induction l generalizing l' with
  | nil => cases h; intro b hb; cases hb
  | cons a as ih =>
    unfold optMapList at h
    split at h
    · rename_i b bs hb hbs
      cases h
      intro x hx
      rcases List.mem_cons.mp hx with rfl | hx
      · exact ⟨a, List.mem_cons_self a as, hb⟩
      · rcases ih bs hbs x hx with ⟨a', ha', hfa'⟩
        exact ⟨a', List.mem_cons_of_mem a ha', hfa'⟩
    · cases h

/-- A successful `optMapList` computes each element from the
corresponding input position. -/
theorem optMapList_get (f : α → Option β) (l : List α) (l' : List β)
    (h : optMapList f l = some l') :
    ∀ i (hi : i < l.length) (hi' : i < l'.length), f (l.get ⟨i, hi⟩) = some (l'.get ⟨i, hi'⟩) := by
  induction l generalizing l' with
  | nil => intro i hi; cases hi
  | cons a as ih =>
    unfold optMapList at h
    split at h
    · rename_i b bs hb hbs
      cases h
      intro i hi hi'
      cases i with
      | zero => exact hb
      | succ j => exact ih bs hbs j (Nat.lt_of_succ_lt_succ hi) (Nat.lt_of_succ_lt_succ hi')
    · cases h

/-- The image of a successful `optMapList` covers every input element. -/
theorem optMapList_forall (f : α → Option β) (l : List α) (l' : List β)
    (h : optMapList f l = some l') : ∀ a ∈ l, ∃ b ∈ l', f a = some b := by
  induction l generalizing l' with
  | nil => intro a ha; cases ha
  | cons a as ih =>
    unfold optMapList at h
    split at h
    · rename_i b bs hb hbs
      cases h
      intro x hx
      rcases List.mem_cons.mp hx with rfl | hx
      · exact ⟨b, List.mem_cons_self b bs, hb⟩
      · rcases ih bs hbs x hx with ⟨b', hb', hfb'⟩
        exact ⟨b', List.mem_cons_of_mem b hb', hfb'⟩
    · cases h

/-! Claim theorems. -/

/-- C1: the executor acts only on columns of the working table's schema -
every column of the result table of `execute_query_plan` is a column of
the input dataset or the alias of a valid aggregation of the plan's
groupby spec, and a filter clause that has any effect (changed rows or an
audit fragment) names a column of the working schema. -/
theorem c1_executor_schema_safety (df : DataFrame) (pl : Plan) (res : DataFrame) (audit : String)
    (h : execute_query_plan df pl = some (res, audit)) :
    (∀ c ∈ res.cols, c ∈ df.cols ∨ c ∈ validAliases df pl)
    ∧ (∀ (w : DataFrame) (f : FilterClause) (r : DataFrame × List String),
        f ∈ pl.filters → applyFilter w f = some r → r ≠ (w, []) →
        ∃ c, f.col = some c ∧ c ∈ w.cols) := by
  constructor
  · unfold execute_query_plan at h
    cases h1 : runFilters df pl.filters with
    | none => rw [h1] at h; exact Option.noConfusion h
    | some p1 =>
      obtain ⟨w1, wcs⟩ := p1
      simp only [h1] at h
      have hw1 : w1.cols = df.cols := runFilters_cols pl.filters df (w1, wcs) h1
      cases h2 : groupStep w1 pl.groupby with
      | none => rw [h2] at h; exact Option.noConfusion h
      | some p2 =>
        obtain ⟨w2, parts⟩ := p2
        simp only [h2] at h
        have hg := groupStep_cols w1 pl.groupby (w2, parts) h2
        cases h4 : sortStep (selectStep w2 pl.select_cols).1 pl.sort with
        | none => rw [h4] at h; exact Option.noConfusion h
        | some p4 =>
          obtain ⟨w4, ord⟩ := p4
          simp only [h4] at h
          have hw4 : w4.cols = (selectStep w2 pl.select_cols).1.cols :=
            sortStep_cols _ pl.sort (w4, ord) h4
          have hres : res.cols = w4.cols := by
            by_cases hlim : 0 < limitVal pl.limit
            · rw [if_pos hlim] at h; cases h; rfl
            · rw [if_neg hlim] at h; cases h; rfl
          intro c hc
          rw [hres, hw4] at hc
          have hc2 := selectStep_cols_sub w2 pl.select_cols c hc
          rcases hg c hc2 with hin | hal




          · exact Or.inl (hw1 ▸ hin)
          · right
            unfold validAliases
            cases hgb : pl.groupby with
            | none => rw [hgb] at hal; cases hal
            | some g =>
              rw [hgb] at hal
              unfold gbAliases at hal
              rw [hw1] at hal
              exact hal
  · intro w f r hmem happ hne
    rcases f with ⟨fc, fo, fv, fci⟩
    rcases fc with _ | c
    · cases happ; exact absurd rfl hne
    rcases fo with _ | op
    · cases happ; exact absurd rfl hne
    by_cases hg : c = "" ∨ op = "" ∨ ¬ c ∈ w.cols
    · simp only [applyFilter] at happ
      rw [if_pos hg] at happ
      cases happ
      exact absurd rfl hne
    · push_neg at hg
      exact ⟨c, rfl, hg.2.2⟩

/-- C1 witness: the invariant instantiated at a concrete dataset and the
empty plan. -/
theorem c1_witness :
    (∀ c ∈ (⟨["a"], [[Cell.int 3]]⟩ : DataFrame).cols, c ∈ c1df.cols ∨ c ∈ validAliases c1df c1plan)
    ∧ (∀ (w : DataFrame) (f : FilterClause) (r : DataFrame × List String),
        f ∈ c1plan.filters → applyFilter w f = some r → r ≠ (w, []) →
        ∃ c, f.col = some c ∧ c ∈ w.cols) :=
  c1_executor_schema_safety c1df c1plan ⟨["a"], [[Cell.int 3]]⟩
    ("SELECT * FROM merged_df   LIMIT 10") (by rfl)

/-- C3: the claim that `execute_query_plan` never raises and treats a
scalar `in` value exactly as its singleton list fails on the code: with
the integer value `5` the audit-fragment comprehension iterates a
non-iterable and the executor raises `TypeError` (modeled as `none`),
while the singleton-list form `[5]` completes normally. -/
theorem c3_in_scalar_raises :
    execute_query_plan c3df c3plan = none
    ∧ (execute_query_plan c3df c3planList).map Prod.fst = some ⟨["c"], []⟩ :=
  ⟨rfl, rfl⟩

/-- C4: the claim that a missing value never matches a `contains` filter
fails on the code: `astype(str)` renders the missing cell as the text
`nan` *before* the `na=False` guard can apply, and `nan` contains `a`, so
the missing row is kept (under either case-insensitivity setting). -/
theorem c4_null_contains_matches :
    (execute_query_plan c4df c4plan).map Prod.fst = some ⟨["c"], [[Cell.null]]⟩
    ∧ (execute_query_plan c4df c4planCS).map Prod.fst = some ⟨["c"], [[Cell.null]]⟩
    ∧ cellStr Cell.null = "nan" :=
  ⟨rfl, rfl, rfl⟩

/-- C6: the claim that `_extract_json` returns the first top-level JSON
object and raises only when no parseable object exists fails on the code:
the greedy `\x7b.*\x7d` regex spans from the first opening to the last
closing brace, so on a text embedding two objects `json.loads` of the
span fails and the function raises, although the text does contain the
parseable first object. -/
theorem c6_greedy_extract_raises :
    extract_json c6text = .error .decodeErr
    ∧ (jsonParse c6obj).isSome = true
    ∧ listInfix c6obj.data c6text.data = true :=
  ⟨rfl, rfl, rfl⟩

/-! C7 machinery: idempotence and output shape of `make_json_safe`. -/

mutual
/-- `make_json_safe` is idempotent. -/
theorem mjs_idem : (v : PyVal) → make_json_safe (make_json_safe v) = make_json_safe v
  | .none => rfl
  | .NaT => rfl
  | .timestamp _ => rfl
  | .npInt _ => rfl
  | .npFloat f _ => by cases f <;> rfl
  | .npBool _ => rfl
  | .npArray xs => by
      show PyVal.list (mjsList (mjsTolistList xs)) = PyVal.list (mjsTolistList xs)
      rw [mjs_tl_fix_list xs]
  | .dict kvs => by
      show PyVal.dict (mjsDict (mjsDict kvs)) = PyVal.dict (mjsDict kvs)
      rw [mjs_idem_dict kvs]
  | .list xs => by
      show PyVal.list (mjsList (mjsList xs)) = PyVal.list (mjsList xs)
      rw [mjs_idem_list xs]
  | .str _ => rfl
  | .int _ => rfl
  | .float _ _ => rfl
  | .bool _ => rfl

theorem mjs_idem_list : (l : List PyVal) → mjsList (mjsList l) = mjsList l
  | [] => rfl
  | x :: xs => by
      show make_json_safe (make_json_safe x) :: mjsList (mjsList xs) = _
      rw [mjs_idem x, mjs_idem_list xs]; rfl

theorem mjs_idem_dict : (l : List (String × PyVal)) → mjsDict (mjsDict l) = mjsDict l
  | [] => rfl
  | (k, v) :: kvs => by
      show (k, make_json_safe (make_json_safe v)) :: mjsDict (mjsDict kvs) = _
      rw [mjs_idem v, mjs_idem_dict kvs]; rfl

/-- The `.tolist()`-then-normalize composition is already normalized. -/
theorem mjs_tl_fix : (v : PyVal) → make_json_safe (mjsTolist v) = mjsTolist v
  | .npInt _ => rfl
  | .npFloat _ _ => rfl
  | .npBool _ => rfl
  | .npArray ys => by
      show PyVal.list (mjsList (mjsTolistList ys)) = PyVal.list (mjsTolistList ys)
      rw [mjs_tl_fix_list ys]
  | .none => rfl
  | .NaT => rfl
  | .timestamp _ => rfl
  | .dict kvs => by
      show PyVal.dict (mjsDict (mjsDict kvs)) = PyVal.dict (mjsDict kvs)
      rw [mjs_idem_dict kvs]
  | .list xs => by
      show PyVal.list (mjsList (mjsList xs)) = PyVal.list (mjsList xs)
      rw [mjs_idem_list xs]
  | .str _ => rfl
  | .int _ => rfl
  | .float _ _ => rfl
  | .bool _ => rfl

theorem mjs_tl_fix_list : (l : List PyVal) → mjsList (mjsTolistList l) = mjsTolistList l
  | [] => rfl
  | x :: xs => by
      show make_json_safe (mjsTolist x) :: mjsList (mjsTolistList xs) = _
      rw [mjs_tl_fix x, mjs_tl_fix_list xs]; rfl
end

mutual
/-- The fused `mjsTolist` really is `make_json_safe` after `.tolist()`
conversion. -/
theorem mjsTolist_eq : (v : PyVal) → mjsTolist v = make_json_safe (npToPy v)
  | .npInt _ => rfl
  | .npFloat _ _ => rfl
  | .npBool _ => rfl
  | .npArray ys => by
      show PyVal.list (mjsTolistList ys) = PyVal.list (mjsList (npToPyList ys))
      rw [mjsTolist_eq_list ys]
  | .none => rfl
  | .NaT => rfl
  | .timestamp _ => rfl
  | .dict _ => rfl
  | .list _ => rfl
  | .str _ => rfl
  | .int _ => rfl
  | .float _ _ => rfl
  | .bool _ => rfl

theorem mjsTolist_eq_list : (l : List PyVal) → mjsTolistList l = mjsList (npToPyList l)
  | [] => rfl
  | x :: xs => by
      show mjsTolist x :: mjsTolistList xs = make_json_safe (npToPy x) :: mjsList (npToPyList xs)
      rw [mjsTolist_eq x, mjsTolist_eq_list xs]
end

mutual
/-- The output of `make_json_safe` contains no NumPy/pandas constructor. -/
theorem mjs_npFree : (v : PyVal) → npFree (make_json_safe v) = true
  | .none => rfl
  | .NaT => rfl
  | .timestamp _ => rfl
  | .npInt _ => rfl
  | .npFloat f _ => by cases f <;> rfl
  | .npBool _ => rfl
  | .npArray xs => mjs_npFree_tl_list xs
  | .dict kvs => mjs_npFree_dict kvs
  | .list xs => mjs_npFree_list xs
  | .str _ => rfl
  | .int _ => rfl
  | .float _ _ => rfl
  | .bool _ => rfl

theorem mjs_npFree_list : (l : List PyVal) → npFreeList (mjsList l) = true
  | [] => rfl
  | x :: xs => by
      show (npFree (make_json_safe x) && npFreeList (mjsList xs)) = true
      rw [mjs_npFree x, mjs_npFree_list xs]; rfl

theorem mjs_npFree_dict : (l : List (String × PyVal)) → npFreeDict (mjsDict l) = true
  | [] => rfl
  | (k, v) :: kvs => by
      show (npFree (make_json_safe v) && npFreeDict (mjsDict kvs)) = true
      rw [mjs_npFree v, mjs_npFree_dict kvs]; rfl

theorem mjs_npFree_tl : (v : PyVal) → npFree (mjsTolist v) = true
  | .npInt _ => rfl
  | .npFloat _ _ => rfl
  | .npBool _ => rfl
  | .npArray ys => mjs_npFree_tl_list ys
  | .none => rfl
  | .NaT => rfl
  | .timestamp _ => rfl
  | .dict kvs => mjs_npFree_dict kvs
  | .list xs => mjs_npFree_list xs
  | .str _ => rfl
  | .int _ => rfl
  | .float _ _ => rfl
  | .bool _ => rfl

theorem mjs_npFree_tl_list : (l : List PyVal) → npFreeList (mjsTolistList l) = true
  | [] => rfl
  | x :: xs => by
      show (npFree (mjsTolist x) && npFreeList (mjsTolistList xs)) = true
      rw [mjs_npFree_tl x, mjs_npFree_tl_list xs]; rfl
end

/-- C7 counterexample: a plain Python non-finite float (the finiteness
flag `false` models `float("nan")`) falls through `make_json_safe`
unchanged instead of mapping to null, because the source only intercepts
`np.floating` instances. -/
theorem c7_counterexample :
    make_json_safe (PyVal.float false 0) = PyVal.float false 0
    ∧ make_json_safe (PyVal.float false 0) ≠ PyVal.none :=
  ⟨rfl, fun h => PyVal.noConfusion h⟩

/-- C7 (amended): `make_json_safe` maps non-finite *NumPy* floats to
null, also nested inside lists and mappings; its output is free of every
NumPy/pandas constructor; and it is idempotent.  It is total by
construction (never raises).  Plain Python non-finite floats pass through
unchanged (see the counterexample). -/
theorem c7_json_safe_amended :
    (∀ q : ℚ, make_json_safe (PyVal.npFloat false q) = PyVal.none)
    ∧ (∀ q : ℚ, make_json_safe (PyVal.list [PyVal.npFloat false q]) = PyVal.list [PyVal.none])
    ∧ (∀ (k : String) (q : ℚ),
        make_json_safe (PyVal.dict [(k, PyVal.npFloat false q)]) = PyVal.dict [(k, PyVal.none)])
    ∧ (∀ v, npFree (make_json_safe v) = true)
    ∧ (∀ v, make_json_safe (make_json_safe v) = make_json_safe v) :=
  ⟨fun _ => rfl, fun _ => rfl, fun _ _ => rfl, mjs_npFree, mjs_idem⟩

/-- C10: `_best_col_match` runs a complete exact-match pass over all
candidates before any containment matching, so whenever some candidate
has an exact normalized match the result is the first pass's result - a
containment match of an earlier candidate can never shadow it; and on
schema `["Location Region", "Incident Count"]` with candidates
`["region", "location"]` it returns `"Location Region"` via the
containment pass (the exact pass finds nothing). -/
theorem c10_resolver_two_pass (cols cands : List String) (c : String)
    (h1 : c ∈ cands) (h2 : lookupDict (normDict cols) (normalize c) ≠ none) :
    best_col_match cols cands = firstExact (normDict cols) cands
    ∧ firstExact (normDict cols) cands ≠ none
    ∧ firstExact (normDict ["Location Region", "Incident Count"]) ["region", "location"] = none
    ∧ best_col_match ["Location Region", "Incident Count"] ["region", "location"] =
        some ("Location Region") := by
  have hfe : ∀ l : List String, c ∈ l → firstExact (normDict cols) l ≠ none := by
    intro l
    induction l with
    | nil => intro hmem; cases hmem
    | cons a as ih =>
      intro hmem
      unfold firstExact
      cases hl : lookupDict (normDict cols) (normalize a) with
      | some r => exact fun hcon => Option.noConfusion hcon
      | none =>
        rcases List.mem_cons.mp hmem with rfl | hmem2
        · exact absurd hl h2
        · exact ih hmem2
  refine ⟨?_, hfe cands h1, rfl, rfl⟩
  unfold best_col_match
  cases hx : firstExact (normDict cols) cands with
  | none => exact absurd hx (hfe cands h1)
  | some r => rfl

/-- C10 witness: the no-shadowing property applied at a concrete schema
with an exact match, and the concrete containment example extracted from
the theorem. -/
theorem c10_witness :
    best_col_match ["Location Region", "Incident Count"] ["region", "location"] =
      some ("Location Region") :=
  (c10_resolver_two_pass ["Region"] ["region"] "region"
    (List.mem_cons_self "region" []) (by decide)).2.2.2

/-- C8: for a comparison filter (`gt`/`gte`/`lt`/`lte`) with a scalar
(non-list) value on an existing column, the executor tries numeric
coercion of value and column first; exactly when the value fails to
coerce numerically it tries chronological coercion of both sides; when
that also fails the clause is skipped with no rows excluded and no audit
fragment; and in both applied cases rows whose column value fails to
coerce are excluded from the kept set. -/
theorem c8_comparison_coercion (w : DataFrame) (f : FilterClause) (c op : String)
    (hc : f.col = some c) (hop : f.op = some op)
    (hmem : c ∈ w.cols) (hce : c ≠ "")
    (hops : op = "gt" ∨ op = "gte" ∨ op = "lt" ∨ op = "lte")
    (hsc : f.value.isList = false) :
    (∀ q : ℚ, toNumVal f.value = some q →
      applyFilter w f = some (numFilter w c op q,
        [c ++ " " ++ opSym op ++ " " ++ pyStrVal f.value])
      ∧ ∀ r, toNumCell (cellAt w.cols c r) = none → r ∉ (numFilter w c op q).rows)
    ∧ (toNumVal f.value = none → ∀ d : Int, toDateVal f.value = some d →
      applyFilter w f = some (dateFilter w c op d,
        [c ++ " " ++ opSym op ++ " \x27" ++ pyStrVal f.value ++ "\x27"])
      ∧ ∀ r, toDateCell (cellAt w.cols c r) = none → r ∉ (dateFilter w c op d).rows)
    ∧ (toNumVal f.value = none → toDateVal f.value = none →
      applyFilter w f = some (w, [])) := by
  have hop0 : op ≠ "" := by rcases hops with h | h | h | h <;> subst h <;> decide
  have hop1 : op ≠ "contains" := by rcases hops with h | h | h | h <;> subst h <;> decide
  have hop2 : op ≠ "equals" := by rcases hops with h | h | h | h <;> subst h <;> decide
  have hop3 : op ≠ "in" := by rcases hops with h | h | h | h <;> subst h <;> decide
  have hguard : ¬(c = "" ∨ op = "" ∨ ¬ c ∈ w.cols) := by
    intro hcon
    rcases hcon with h | h | h
    · exact hce h
    · exact hop0 h
    · exact h hmem
  obtain ⟨fc, fo, fv, fci⟩ := f
  simp only at hc hop hsc ⊢
  subst hc; subst hop
  refine ⟨?_, ?_, ?_⟩
  · intro q hq
    constructor
    · unfold applyFilter
      simp only
      rw [if_neg hguard, if_neg hop1, if_neg hop2, if_neg hop3, if_pos hops]
      simp only [hq]
    · intro r hnone hmemf
      have := (List.mem_filter.mp hmemf).2
      rw [hnone] at this
      exact Bool.noConfusion this
  · intro hn d hd
    constructor
    · unfold applyFilter
      simp only
      rw [if_neg hguard, if_neg hop1, if_neg hop2, if_neg hop3, if_pos hops]
      rcases fv with _ | s | n | xs
      · simp only [hn, hd]
      · simp only [hn, hd]
      · simp only [hn, hd]
      · exact Bool.noConfusion hsc
    · intro r hnone hmemf
      have := (List.mem_filter.mp hmemf).2
      rw [hnone] at this
      exact Bool.noConfusion this
  · intro hn hd
    unfold applyFilter
    simp only
    rw [if_neg hguard, if_neg hop1, if_neg hop2, if_neg hop3, if_pos hops]
    rcases fv with _ | s | n | xs
    · simp only [hn, hd]
    · simp only [hn, hd]
    · simp only [hn, hd]
    · exact Bool.noConfusion hsc

/-- C8 witness: a `gt` filter whose value is date-like text takes the
chronological branch and keeps exactly the later rows, excluding the
missing one. -/
theorem c8_witness :
    applyFilter c8df c8f =
      some (⟨["d"], [[Cell.str "2024-01-02"]]⟩, ["d > \x272023-06-01\x27"]) := by
  have h := (c8_comparison_coercion c8df c8f "d" "gt" rfl rfl (by decide) (by decide)
    (Or.inl rfl) rfl).2.1 rfl 20230601 rfl
  exact h.1.trans (by rfl)

/-- C5 counterexample: on an 11-row dataset, a plan whose only populated
field is `select_cols` returns 10 rows (the default limit truncates), not
the input's row count - the round trip claim fails as stated. -/
theorem c5_counterexample :
    (execute_query_plan c5df c5plan).map (fun p => p.1.rows.length) = some 10
    ∧ c5df.rows.length = 11 :=
  ⟨rfl, rfl⟩

/-- C5 (amended): for a plan whose only populated field is `select_cols`,
set to a non-empty subset of the existing columns, the executor returns
exactly those columns in the given order with the rows projected
unchanged, *provided the dataset has at most 10 rows* (the absent `limit`
defaults to 10 and truncates longer inputs). -/
theorem c5_projection_amended (df : DataFrame) (sel : List String)
    (h1 : sel.isEmpty = false) (h2 : ∀ c ∈ sel, c ∈ df.cols) (h3 : df.rows.length ≤ 10) :
    (execute_query_plan df { select_cols := sel }).map Prod.fst =
      some ⟨sel, df.rows.map (fun r => sel.map (fun c => cellAt df.cols c r))⟩ := by
  have hsel : selCols df sel = sel := by
    unfold selCols
    exact List.filter_eq_self.mpr (fun c hc => decide_eq_true (h2 c hc))
  have hstep : selectStep df sel =
      (⟨sel, df.rows.map (fun r => sel.map (fun c => cellAt df.cols c r))⟩, sel) := by
    unfold selectStep
    rw [h1, hsel, h1]
    rfl
  unfold execute_query_plan
  have e1 : runFilters df ({ select_cols := sel } : Plan).filters = some (df, []) := rfl
  simp only [e1]
  have e2 : groupStep df ({ select_cols := sel } : Plan).groupby = some (df, []) := rfl
  simp only [e2]
  have e3 : selectStep df ({ select_cols := sel } : Plan).select_cols =
      (⟨sel, df.rows.map (fun r => sel.map (fun c => cellAt df.cols c r))⟩, sel) := hstep
  simp only [e3]
  have e4 : sortStep
      (⟨sel, df.rows.map (fun r => sel.map (fun c => cellAt df.cols c r))⟩ : DataFrame)
      ({ select_cols := sel } : Plan).sort =
      some (⟨sel, df.rows.map (fun r => sel.map (fun c => cellAt df.cols c r))⟩, "") := rfl
  simp only [e4]
  have e5 : limitVal ({ select_cols := sel } : Plan).limit = 10 := rfl
  simp only [e5, if_pos (by decide : (0 : Int) < 10)]
  have htake : (df.rows.map (fun r => sel.map (fun c => cellAt df.cols c r))).take ((10 : Int).toNat) =
      df.rows.map (fun r => sel.map (fun c => cellAt df.cols c r)) :=
    List.take_of_length_le (by rw [List.length_map]; exact le_trans h3 (by decide))
  rw [htake]
  rfl

/-- C5 witness: the amended projection round trip at a concrete two-row
dataset. -/
theorem c5_witness :
    (execute_query_plan c5wdf { select_cols := ["a"] }).map Prod.fst =
      some ⟨["a"], [[Cell.int 1], [Cell.int 2]]⟩ := by
  have h := c5_projection_amended c5wdf ["a"] rfl (by decide) (by decide)
  exact h.trans (by rfl)

/-- C9: whenever the grouping stage activates (non-empty resolved `by`
list, at least one valid aggregation) and completes, the grouped table
has exactly one row per distinct key combination of the `by` columns -
the key tuples of the result are a permutation of the deduplicated key
tuples of all input rows, so missing-valued keys form their own group
and no row is dropped - and every `count` aggregation stores under its
alias the number of non-missing entries of its column within the group;
in particular the sector/count example yields exactly the rows
`(finance, 1)` and `(health, 2)`. -/
theorem c9_groupby_count :
    (∀ (w : DataFrame) (g : GroupSpec) (res : DataFrame) (parts : List String),
      groupStep w (some g) = some (res, parts) →
      (resolvedBys w g).isEmpty = false →
      (buildAggMap w.cols g.agg).isEmpty = false →
      (res.rows.map (List.take (resolvedBys w g).length)).Perm
        ((w.rows.map (keyOf w.cols (resolvedBys w g))).dedup)
      ∧ ∀ k ∈ (w.rows.map (keyOf w.cols (resolvedBys w g))).dedup,
          ∃ vals : List Cell, (k ++ vals) ∈ res.rows
            ∧ vals.length = (buildAggMap w.cols g.agg).length
            ∧ ∀ (i : Nat) (hi : i < (buildAggMap w.cols g.agg).length) (hi' : i < vals.length),
                ((buildAggMap w.cols g.agg).get ⟨i, hi⟩).2.2 = "count" →
                vals.get ⟨i, hi'⟩ = Cell.int
                  ((groupCells w (resolvedBys w g) k
                      ((buildAggMap w.cols g.agg).get ⟨i, hi⟩).2.1).filter
                    (fun x => decide (x ≠ Cell.null))).length)
    ∧ (execute_query_plan c9df c9plan).map Prod.fst =
        some ⟨["sector", "n"],
          [[Cell.str "finance", Cell.int 1], [Cell.str "health", Cell.int 2]]⟩ := by
  constructor
  · intro w g res parts h hby ham
    unfold groupStep at h
    simp only at h
    rw [if_neg (by simp [hby, ham])] at h
    cases hcol : (buildAggMap w.cols g.agg).any (fun e => decide (e.1 ∈ resolvedBys w g)) with
    | true =>
      simp only [hcol] at h
      rw [if_pos trivial] at h
      exact Option.noConfusion h
    | false =>
    simp only [hcol] at h
    rw [if_neg (by decide : ¬ (false = true))] at h
    cases hs : sortM keyLe ((w.rows.map (keyOf w.cols (resolvedBys w g))).dedup) with
    | none => simp only [hs] at h; exact Option.noConfusion h
    | some ks =>
    simp only [hs] at h
    cases hm : optMapList
        (fun k => (aggRow w (resolvedBys w g) (buildAggMap w.cols g.agg) k).map
          (fun vals => k ++ vals)) ks with
    | none => simp only [hm] at h; exact Option.noConfusion h
    | some rs =>
    simp only [hm, Option.some.injEq, Prod.mk.injEq] at h
    obtain ⟨hres, hparts⟩ := h
    have hrows : res.rows = rs := by rw [← hres]
    have hlen_rs : rs.length = ks.length := optMapList_length _ _ _ hm
    have hkeys : ∀ k ∈ ks, k.length = (resolvedBys w g).length := by
      intro k hk
      have hk2 : k ∈ (w.rows.map (keyOf w.cols (resolvedBys w g))).dedup :=
        ((sortM_perm _ _ _ hs).mem_iff).mp hk
      obtain ⟨r, _, rfl⟩ := List.mem_map.mp (List.mem_dedup.mp hk2)
      simp [keyOf]
    constructor
    · rw [hrows]
      have hmt : rs.map (List.take (resolvedBys w g).length) = ks := by
        apply List.ext_get (by rw [List.length_map, hlen_rs])
        intro i hi1 hi2
        have hir : i < rs.length := by rw [List.length_map] at hi1; exact hi1
        rw [List.get_map]
        have hgi := optMapList_get _ _ _ hm i hi2 hir
        cases har : aggRow w (resolvedBys w g) (buildAggMap w.cols g.agg)
            (ks.get ⟨i, hi2⟩) with
        | none => rw [har] at hgi; exact absurd hgi (by simp)
        | some vals =>
          rw [har] at hgi
          simp only [Option.map_some', Option.some.injEq] at hgi
          rw [← hgi, ← hkeys (ks.get ⟨i, hi2⟩) (ks.get_mem i hi2)]
          exact List.take_left _ _
      rw [hmt]
      exact sortM_perm _ _ _ hs
    · intro k hk
      have hk_ks : k ∈ ks := ((sortM_perm _ _ _ hs).mem_iff).mpr hk
      obtain ⟨row, hrow_mem, hfrow⟩ := optMapList_forall _ _ _ hm k hk_ks
      cases har : aggRow w (resolvedBys w g) (buildAggMap w.cols g.agg) k with
      | none => rw [har] at hfrow; exact absurd hfrow (by simp)
      | some vals =>
        rw [har] at hfrow
        simp only [Option.map_some', Option.some.injEq] at hfrow
        refine ⟨vals, ?_, optMapList_length _ _ _ har, ?_⟩
        · rw [hrows, hfrow]; exact hrow_mem
        · intro i hi hi' hcnt
          have hgi := optMapList_get _ _ _ har i hi hi'
          rw [hcnt] at hgi
          have e : aggApply "count"
              (groupCells w (resolvedBys w g) k
                ((buildAggMap w.cols g.agg).get ⟨i, hi⟩).2.1) =
              some (Cell.int
                ((groupCells w (resolvedBys w g) k
                    ((buildAggMap w.cols g.agg).get ⟨i, hi⟩).2.1).filter
                  (fun x => decide (x ≠ Cell.null))).length) := rfl
          rw [e] at hgi
          exact (Option.some.inj hgi).symm
  · rfl

/-- C9 witness: the one-row-per-distinct-key permutation property
instantiated at the sector/count example. -/
theorem c9_witness :
    (((⟨["sector", "n"],
        [[Cell.str "finance", Cell.int 1], [Cell.str "health", Cell.int 2]]⟩ :
          DataFrame)).rows.map (List.take (resolvedBys c9df c9gb).length)).Perm
      ((c9df.rows.map (keyOf c9df.cols (resolvedBys c9df c9gb))).dedup) :=
  (c9_groupby_count.1 c9df c9gb
    ⟨["sector", "n"], [[Cell.str "finance", Cell.int 1], [Cell.str "health", Cell.int 2]]⟩
    (["sector", "COUNT(id) AS n"]) rfl rfl rfl).1

/-- Grouping depends on its spec only through the resolved `by` list and
the built aggregation map. -/
theorem groupStep_congr (w : DataFrame) (g g' : GroupSpec)
    (hb : resolvedBys w g = resolvedBys w g')
    (ha : buildAggMap w.cols g.agg = buildAggMap w.cols g'.agg) :
    groupStep w (some g) = groupStep w (some g') := by
  simp only [groupStep]
  rw [hb, ha]

/-- Projection depends on a non-empty select list only through its
restriction to existing columns. -/
theorem selectStep_congr (w : DataFrame) (sel sel' : List String)
    (hne : sel.isEmpty = false) (h : selCols w sel = selCols w sel') :
    selectStep w sel = selectStep w sel' := by
  unfold selectStep
  rw [if_neg (fun hcon => Bool.noConfusion (hne.symm.trans hcon))]
  by_cases hne' : sel'.isEmpty = true
  · have hsel' : sel' = [] := by
      cases sel' with
      | nil => rfl
      | cons a as => exact Bool.noConfusion hne'
    subst hsel'
    have h0 : selCols w sel = [] := by rw [h]; rfl
    rw [h0]
    rfl
  · rw [if_neg hne', h]

/-- C2 counterexample: a `select_cols` entry that is absent from the
*dataset's* schema but equal to a grouping alias is applied, not ignored:
selecting the alias `n` after grouping does not execute like the plan
with that fragment removed. -/
theorem c2_counterexample :
    execute_query_plan c2df c2plan ≠
      execute_query_plan c2df { c2plan with select_cols := [] } := by
  intro hcon
  rw [show execute_query_plan c2df c2plan =
        some (⟨["n"], [[Cell.int 1]]⟩,
          "SELECT sector, COUNT(id) AS n FROM merged_df   LIMIT 10") from rfl] at hcon
  rw [show execute_query_plan c2df { c2plan with select_cols := [] } =
        some (⟨["sector", "n"], [[Cell.str "h", Cell.int 1]]⟩,
          "SELECT sector, COUNT(id) AS n FROM merged_df   LIMIT 10") from rfl] at hcon
  simp only [Option.some.injEq, Prod.mk.injEq, DataFrame.mk.injEq] at hcon
  exact List.noConfusion (List.cons.inj hcon.1.1).2

/-- C2 (amended): a fragment referencing a column absent from the
working table's schema *at the stage where the fragment applies* is
ignored - execution equals the plan with the fragment removed.  For
filter clauses, `by` entries and aggregations that working schema is the
dataset's schema (filtering never changes columns); for `select_cols`
entries it is the post-grouping schema (`midState`), and for the sort
column the post-projection schema (`preSortState`), both of which may
contain aggregation aliases that are not dataset columns (see the
counterexample). -/
theorem c2_fragment_removal_amended :
    (∀ (df : DataFrame) (pl : Plan) (l₁ : List FilterClause) (f : FilterClause)
        (l₂ : List FilterClause) (c : String),
      pl.filters = l₁ ++ f :: l₂ → f.col = some c → c ∉ df.cols →
      execute_query_plan df pl = execute_query_plan df { pl with filters := l₁ ++ l₂ })
    ∧ (∀ (df : DataFrame) (pl : Plan) (g : GroupSpec) (l₁ : List String) (c : String)
        (l₂ : List String),
      pl.groupby = some g → g.bys = l₁ ++ c :: l₂ → c ∉ df.cols →
      execute_query_plan df pl =
        execute_query_plan df { pl with groupby := some { g with bys := l₁ ++ l₂ } })
    ∧ (∀ (df : DataFrame) (pl : Plan) (g : GroupSpec) (l₁ : List AggSpec) (a : AggSpec)
        (l₂ : List AggSpec) (c : String),
      pl.groupby = some g → g.agg = l₁ ++ a :: l₂ → a.col = some c → c ∉ df.cols →
      execute_query_plan df pl =
        execute_query_plan df { pl with groupby := some { g with agg := l₁ ++ l₂ } })
    ∧ (∀ (df : DataFrame) (pl : Plan) (l₁ : List String) (c : String) (l₂ : List String)
        (w : DataFrame),
      pl.select_cols = l₁ ++ c :: l₂ → midState df pl = some w → c ∉ w.cols →
      execute_query_plan df pl = execute_query_plan df { pl with select_cols := l₁ ++ l₂ })
    ∧ (∀ (df : DataFrame) (pl : Plan) (sp : SortSpec) (c : String) (w : DataFrame),
      pl.sort = some sp → sp.col = some c → preSortState df pl = some w → c ∉ w.cols →
      execute_query_plan df pl = execute_query_plan df { pl with sort := none }) := by
  refine ⟨?_, ?_, ?_, ?_, ?_⟩
  · -- filter clause on an absent column
    intro df pl l₁ f l₂ c hf hc habs
    obtain ⟨fls, gb, sel, srt, lim⟩ := pl
    simp only at hf
    subst hf
    have key : runFilters df (l₁ ++ f :: l₂) = runFilters df (l₁ ++ l₂) := by
      rw [runFilters_append, runFilters_append]
      cases h1 : runFilters df l₁ with
      | none => rfl
      | some p =>
        obtain ⟨w1, c1⟩ := p
        simp only
        have hskip : applyFilter w1 f = some (w1, []) :=
          applyFilter_skip w1 f c hc (by rw [runFilters_cols l₁ df (w1, c1) h1]; exact habs)
        have h2 : runFilters w1 (f :: l₂) = runFilters w1 l₂ := by
          show (match applyFilter w1 f with
            | none => none
            | some (w', cs) =>
              match runFilters w' l₂ with
              | none => none
              | some (w'', rest) => some (w'', cs ++ rest)) = runFilters w1 l₂
          rw [hskip]
          show (match runFilters w1 l₂ with
            | none => none
            | some (w'', rest) => some (w'', [] ++ rest)) = runFilters w1 l₂
          cases h3 : runFilters w1 l₂ with
          | none => rfl
          | some q => obtain ⟨w2, c2⟩ := q; rfl
        rw [h2]
    unfold execute_query_plan
    simp only
    rw [key]
  · -- groupby `by` entry on an absent column
    intro df pl g l₁ c l₂ hg hb habs
    obtain ⟨fls, gb, sel, srt, lim⟩ := pl
    simp only at hg
    subst hg
    obtain ⟨bys, agg⟩ := g
    simp only at hb
    subst hb
    unfold execute_query_plan
    simp only
    cases h1 : runFilters df fls with
    | none => rfl
    | some p =>
      obtain ⟨w1, wcs⟩ := p
      simp only
      have hcols : w1.cols = df.cols := runFilters_cols _ _ _ h1
      have hgeq : groupStep w1 (some ⟨l₁ ++ c :: l₂, agg⟩) =
          groupStep w1 (some ⟨l₁ ++ l₂, agg⟩) := by
        apply groupStep_congr
        · unfold resolvedBys
          simp only
          rw [List.filter_append, List.filter_append]
          congr 1
          rw [List.filter_cons_of_neg]
          simp [hcols, habs]
        · rfl
      rw [hgeq]
  · -- aggregation on an absent column
    intro df pl g l₁ a l₂ c hg ha hac habs
    obtain ⟨fls, gb, sel, srt, lim⟩ := pl
    simp only at hg
    subst hg
    obtain ⟨bys, agg⟩ := g
    simp only at ha
    subst ha
    obtain ⟨acol, afn, aname⟩ := a
    simp only at hac
    subst hac
    unfold execute_query_plan
    simp only
    cases h1 : runFilters df fls with
    | none => rfl
    | some p =>
      obtain ⟨w1, wcs⟩ := p
      simp only
      have hcols : w1.cols = df.cols := runFilters_cols _ _ _ h1
      have hgeq : groupStep w1 (some ⟨bys, l₁ ++ ⟨some c, afn, aname⟩ :: l₂⟩) =
          groupStep w1 (some ⟨bys, l₁ ++ l₂⟩) := by
        apply groupStep_congr
        · rfl
        · unfold buildAggMap
          simp only
          rw [List.foldl_append, List.foldl_append, List.foldl_cons]
          congr 1
          cases afn with
          | none => rfl
          | some fn =>
            simp only
            rw [if_neg]
            intro hcon
            exact habs (hcols ▸ hcon.1)
      rw [hgeq]
  · -- select entry absent from the post-grouping working schema
    intro df pl l₁ c l₂ w hsel hmid habs
    obtain ⟨fls, gb, sel, srt, lim⟩ := pl
    simp only at hsel
    subst hsel
    unfold midState at hmid
    simp only at hmid
    cases h1 : runFilters df fls with
    | none => rw [h1] at hmid; exact Option.noConfusion hmid
    | some p =>
      obtain ⟨w1, wcs⟩ := p
      simp only [h1] at hmid
      cases h2 : groupStep w1 gb with
      | none => rw [h2] at hmid; exact Option.noConfusion hmid
      | some q =>
        obtain ⟨w2, parts⟩ := q
        simp only [h2, Option.some.injEq] at hmid
        subst hmid
        unfold execute_query_plan
        simp only
        rw [h1]
        simp only
        rw [h2]
        simp only
        have hse : selectStep w2 (l₁ ++ c :: l₂) = selectStep w2 (l₁ ++ l₂) := by
          apply selectStep_congr
          · cases l₁ <;> rfl
          · unfold selCols
            rw [List.filter_append, List.filter_append]
            congr 1
            rw [List.filter_cons_of_neg]
            simp [habs]
        rw [hse]
  · -- sort column absent from the post-projection working schema
    intro df pl sp c w hsrt hspc hpre habs
    obtain ⟨fls, gb, sel, srt, lim⟩ := pl
    simp only at hsrt
    subst hsrt
    unfold preSortState midState at hpre
    simp only at hpre
    cases h1 : runFilters df fls with
    | none => rw [h1] at hpre; exact Option.noConfusion hpre
    | some p =>
      obtain ⟨w1, wcs⟩ := p
      simp only [h1] at hpre
      cases h2 : groupStep w1 gb with
      | none => rw [h2] at hpre; exact Option.noConfusion hpre
      | some q =>
        obtain ⟨w2, parts⟩ := q
        simp only [h2, Option.map_some', Option.some.injEq] at hpre
        unfold execute_query_plan
        simp only
        rw [h1]
        simp only
        rw [h2]
        simp only
        have hso : sortStep (selectStep w2 sel).1 (some sp) =
            some ((selectStep w2 sel).1, "") := by
          simp only [sortStep, hspc]
          rw [if_neg (by rw [hpre]; exact habs)]
        rw [hso]
        rfl

/-- C2 witness: removing a filter on a nonexistent column leaves the
execution result unchanged, at a concrete dataset and plan. -/
theorem c2_witness :
    execute_query_plan c2wdf c2wplan = execute_query_plan c2wdf { c2wplan with filters := [] } :=
  c2_fragment_removal_amended.1 c2wdf c2wplan []
    { col := some "zz", op := some "contains", value := .vstr "q" } [] "zz"
    rfl rfl (by decide)

end QH
